import Mathlib

/-!
Verification of the observeAI alert/RCA service against its specification.

The Python sources are shallowly embedded as pure Lean functions:
  * timestamps (ISO-8601 strings in the code) are modelled by their epoch-second
    value as `Int`;
  * Python dicts carrying tool arguments are modelled by association lists with
    unique keys (`Dict`);
  * the database store (alerts / incidents tables) is modelled by a `Store`
    record of lists, and each service method becomes a store transformer;
  * the nondeterministic LLM is an explicit script of responses, and the
    LLM-backed correlation decision is an explicit function parameter.
-/

namespace ObserveAI

/-! ## Basic string helpers (Python `str.lower` and the `in` operator) -/

/-- Character-wise lowercasing, modelling Python `str.lower()` on ASCII text. -/
def strLower (s : String) : String := String.mk (s.toList.map Char.toLower)

/-- `listStartsWith p l` holds when `p` is a prefix of `l`. -/
def listStartsWith : List Char → List Char → Bool
  | [], _ => true
  | _ :: _, [] => false
  | p :: ps, c :: cs => p == c && listStartsWith ps cs

/-- `hasSubList p l`: `p` occurs contiguously inside `l`. -/
def hasSubList (p : List Char) : List Char → Bool
  | [] => listStartsWith p []
  | c :: cs => listStartsWith p (c :: cs) || hasSubList p cs

/-- `containsSub s pat` models the Python expression `pat in s` on strings. -/
def containsSub (s pat : String) : Bool := hasSubList pat.toList s.toList

/-! ## Enumerations of the data model (src/models/alert.py, incident.py) -/

/-- `AlertSeverity` / `IncidentSeverity`: the two Python enums share the same
values, so a single Lean type models both. -/
inductive Severity
  | critical
  | warning
  | info
  deriving DecidableEq, Repr

/-- Ranking used by `severity_order` in both services: info 0, warning 1,
critical 2. -/
def severityRank : Severity → Nat
  | .info => 0
  | .warning => 1
  | .critical => 2

inductive AlertStatus
  | firing
  | resolved
  deriving DecidableEq, Repr

/-- `IncidentStatus`; the value "open" is spelled `opened` because `open` is a
Lean keyword. -/
inductive IncidentStatus
  | opened
  | analyzing
  | resolved
  | closed
  deriving DecidableEq, Repr

/-! ## Records for the two core tables.

Fields not touched by any claim under verification (generator_url,
received_at, annotations, title, rca_completed_at) are omitted. -/

/-- A row of the `alerts` table. `labels` is the JSON label mapping. -/
structure AlertM where
  id : Nat
  fingerprint : String
  alertname : String
  severity : Severity
  status : AlertStatus
  labels : List (String × String)
  startsAt : Int
  endsAt : Option Int := none
  incidentId : Option Nat := none
  deriving DecidableEq, Repr

/-- A row of the `incidents` table. -/
structure IncidentM where
  id : Nat
  title : String := ""
  status : IncidentStatus
  severity : Severity
  startedAt : Int
  resolvedAt : Option Int := none
  affectedServices : List String := []
  affectedLabels : List (String × String) := []
  primaryAlertId : Option Nat := none
  correlationReason : Option String := none
  deriving DecidableEq, Repr

/-! ## C5: candidate search (CorrelationService.find_related_incident,
src/services/correlation_service.py lines 105-119).

The SQL query selects incidents with
`started_at BETWEEN alert.starts_at - W AND alert.starts_at + W` and
`status IN (OPEN, ANALYZING)`. -/

/-- Default of `correlation_window_seconds` (src/config.py). -/
def defaultCorrelationWindow : Int := 300

/-- The status filter `Incident.status.in_([OPEN, ANALYZING])`. -/
def isCandidateStatus (s : IncidentStatus) : Bool :=
  s == .opened || s == .analyzing

/-- The time-window filter: `window_start ≤ started_at ≤ window_end` with
`window_start = starts_at - W` and `window_end = starts_at + W`. -/
def inCandidateWindow (alertStartsAt w : Int) (inc : IncidentM) : Bool :=
  decide (alertStartsAt - w ≤ inc.startedAt) && decide (inc.startedAt ≤ alertStartsAt + w)

/-- The candidate query of `find_related_incident`, as a filter over the
incident table. -/
def findCandidateIncidents (incidents : List IncidentM) (alertStartsAt w : Int) :
    List IncidentM :=
  incidents.filter (fun inc => inCandidateWindow alertStartsAt w inc && isCandidateStatus inc.status)

/-! ## C6: primary-alert election (CorrelationService._update_primary_alert and
._calculate_causal_score, src/services/correlation_service.py lines 448-493). -/

/-- `CAUSAL_INDICATORS` in source order. -/
def causalIndicators : List (String × Nat) :=
  [("interface", 15), ("bgp", 14), ("ospf", 13), ("route", 12), ("network", 11),
   ("carrier", 14), ("partition", 13),
   ("disk", 10), ("memory", 9), ("cpu", 8), ("storage", 10), ("oom", 9), ("quota", 8),
   ("health", 3), ("unavailable", 2), ("error", 4), ("timeout", 3), ("latency", 3),
   ("connectivity", 5)]

/-- `_calculate_causal_score`: indicator points for each substring of the
lowercased alertname, plus 5 for critical severity. -/
def calculateCausalScore (a : AlertM) : Nat :=
  (causalIndicators.foldl
    (fun acc p => if containsSub (strLower a.alertname) p.1 then acc + p.2 else acc) 0)
  + (if a.severity == .critical then 5 else 0)

/-- One step of the election loop in `_update_primary_alert`: the running pair
is `(best_alert, best_score)` = `(a, score)` on update — the stored score
omits the time bonus, exactly as in the source. `e` is `alerts[0].starts_at`. -/
def electionStep (e : Int) (best : AlertM × Nat) (a : AlertM) : AlertM × Nat :=
  if calculateCausalScore a + (if a.startsAt == e then 1 else 0) > best.2
  then (a, calculateCausalScore a) else best

/-- `_update_primary_alert` over the member list as returned by the database
(ordered by `starts_at` ascending): default to the chronologically first alert,
then fold the comparison loop. Returns the elected alert. -/
def updatePrimaryAlert : List AlertM → Option AlertM
  | [] => none
  | a0 :: rest =>
    some (rest.foldl (electionStep a0.startsAt) (a0, calculateCausalScore a0)).1

/-- The §4.2a score the specification describes: causal score plus 1 when the
alert starts at the earliest member time. -/
def electionScore (earliest : Int) (a : AlertM) : Nat :=
  calculateCausalScore a + (if a.startsAt = earliest then 1 else 0)

/-! ## Python dicts carrying tool arguments.

Modelled as association lists with unique keys; `dSet` replaces in place,
`dDel` removes, so insertion-order differences that the claims never observe
are the only divergence from CPython dict semantics. -/

/-- A JSON-ish scalar as an LLM may send it in tool arguments. -/
inductive PyVal
  | pyStr (s : String)
  | pyInt (n : Int)
  | pyNone
  deriving DecidableEq, Repr

abbrev Dict (V : Type) := List (String × V)

def dGet {V : Type} : Dict V → String → Option V
  | [], _ => none
  | (k', v) :: t, k => if k' == k then some v else dGet t k

def dHas {V : Type} (d : Dict V) (k : String) : Bool := (dGet d k).isSome

def dSet {V : Type} : Dict V → String → V → Dict V
  | [], k, v => [(k, v)]
  | (k', v') :: t, k, v =>
    if k' == k then (k, v) :: t else (k', v') :: dSet t k v

def dDel {V : Type} : Dict V → String → Dict V
  | [], _ => []
  | (k', v) :: t, k => if k' == k then dDel t k else (k', v) :: dDel t k

/-- Python `int(x)` as used on `confidence_score`: identity on ints, string
parsing on strings (leading/trailing blanks stripped), failure (`TypeError`)
on `None`.  `String.toInt?` approximates CPython's integer literal parser. -/
def pyToInt : PyVal → Option Int
  | .pyInt n => some n
  | .pyStr s => s.trim.toInt?
  | .pyNone => none

/-! ## C1/C4: argument normalization (RCAAgent._normalize_tool_input,
src/services/rca_agent.py lines 544-621) and the prompt-assembly pinned
query windows (lines 300-312 and 429-446). -/

/-- One pass of the `param_mappings` loop.  For the query tools
(`dropDup = true`) a duplicate wrong-named key is deleted; the
`generate_report` mapping has no such branch. -/
def applyRename (dropDup : Bool) (d : Dict PyVal) (m : String × String) : Dict PyVal :=
  if dHas d m.1 && !(dHas d m.2) then
    match dGet d m.1 with
    | some v => dSet (dDel d m.1) m.2 v
    | none => d
  else if dropDup && dHas d m.1 && dHas d m.2 then
    dDel d m.1
  else d

def applyMappings (dropDup : Bool) (ms : List (String × String)) (d : Dict PyVal) :
    Dict PyVal :=
  ms.foldl (applyRename dropDup) d

/-- The `query_start_time` / `query_end_time` attributes stored by prompt
assembly (ISO strings in the code, modelled by epoch seconds). -/
structure QueryContext where
  queryStartTime : Option Int
  queryEndTime : Option Int
  deriving DecidableEq, Repr

/-- Normalization for `query_loki` / `query_cortex`: alias renaming, then the
unconditional timestamp override when both pinned values are stored. -/
def normalizeQueryToolInput (queryKey shortKey : String) (ctx : QueryContext)
    (input : Dict PyVal) : Dict PyVal :=
  let d := applyMappings true
    [("end", "end_time"), ("start", "start_time"), ("query", queryKey), (shortKey, queryKey)]
    input
  match ctx.queryStartTime, ctx.queryEndTime with
  | some s, some e => dSet (dSet d "start_time" (.pyInt s)) "end_time" (.pyInt e)
  | _, _ => d

/-- The sentinel default for a missing `root_cause`. -/
def sentinelRootCause : String :=
  "Root cause could not be determined from available evidence"

/-- The `param_mappings` of the `generate_report` branch. -/
def genRenames : List (String × String) :=
  [("root", "root_cause"), ("cause", "root_cause"),
   ("confidence", "confidence_score"), ("score", "confidence_score")]

/-- Default for a missing `root_cause`: `normalized.get("summary", sentinel)`. -/
def grDefaultRootCause (d : Dict PyVal) : Dict PyVal :=
  if dHas d "root_cause" then d
  else dSet d "root_cause" ((dGet d "summary").getD (.pyStr sentinelRootCause))

/-- Default for a missing `confidence_score`: 50. -/
def grDefaultConfidence (d : Dict PyVal) : Dict PyVal :=
  if dHas d "confidence_score" then d else dSet d "confidence_score" (.pyInt 50)

/-- Default for a missing `summary`: the (by now present) `root_cause`. -/
def grDefaultSummary (d : Dict PyVal) : Dict PyVal :=
  if dHas d "summary" then d
  else dSet d "summary" ((dGet d "root_cause").getD (.pyStr "Analysis completed"))

/-- `int(normalized["confidence_score"])` with fall-back 50 on
`ValueError` / `TypeError`.  Note: no clamping is performed. -/
def grCoerce (d : Dict PyVal) : Dict PyVal :=
  dSet d "confidence_score"
    (.pyInt (match dGet d "confidence_score" with
             | some v => (pyToInt v).getD 50
             | none => 50))

/-- Normalization for `generate_report`: alias renaming, the three defaults in
source order, then the integer coercion. -/
def normalizeGenerateReport (input : Dict PyVal) : Dict PyVal :=
  grCoerce (grDefaultSummary (grDefaultConfidence (grDefaultRootCause
    (applyMappings false genRenames input))))

/-- `_normalize_tool_input` dispatcher. -/
def normalizeToolInput (ctx : QueryContext) (toolName : String) (input : Dict PyVal) :
    Dict PyVal :=
  if toolName == "query_loki" then normalizeQueryToolInput "logql_query" "logql" ctx input
  else if toolName == "query_cortex" then normalizeQueryToolInput "promql_query" "promql" ctx input
  else if toolName == "generate_report" then normalizeGenerateReport input
  else input

/-- Pinned window computed by `_format_alert_for_analysis`:
start = alert time − 15 min, end = max(now, alert time + 5 min). -/
def alertQueryWindow (alertTime now : Int) : Int × Int :=
  (alertTime - 15 * 60, max now (alertTime + 5 * 60))

/-- Pinned window computed by `_format_incident_for_analysis`: start falls back
from earliest alert time to incident start to now − 30 min; end is `now`. -/
def incidentQueryWindow (earliest incidentStart : Option Int) (now : Int) : Int × Int :=
  (match earliest, incidentStart with
   | some t, _ => t - 15 * 60
   | none, some t => t - 15 * 60
   | none, none => now - 30 * 60,
   now)

/-- The query context stored by single-alert prompt assembly. -/
def alertQueryContext (alertTime now : Int) : QueryContext :=
  ⟨some (alertQueryWindow alertTime now).1, some (alertQueryWindow alertTime now).2⟩

/-- The query context stored by incident prompt assembly. -/
def incidentQueryContext (earliest incidentStart : Option Int) (now : Int) : QueryContext :=
  ⟨some (incidentQueryWindow earliest incidentStart now).1,
   some (incidentQueryWindow earliest incidentStart now).2⟩

/-- The pinned end time as claim C1 words it for every run:
max(current time, earliest alert time + 5 min). -/
def specPinnedEnd (now earliest : Int) : Int := max now (earliest + 5 * 60)

/-- The bound check of `RCAReportOutput.confidence_score`
(pydantic `ge=0, le=100`, src/tools/generate_report.py line 223): values
outside the range make report validation fail — they are not clamped. -/
def rcaConfidenceValid (n : Int) : Bool := decide (0 ≤ n) && decide (n ≤ 100)

/-! ## C2/C3: the agent loop (RCAAgent._run_agent_loop,
src/services/rca_agent.py lines 658-803).

The LLM is modelled by an explicit script of steps, consumed one per
`llm.chat` call; an exhausted script behaves like a (non-rate-limit)
transport error.  Tool argument payloads are not tracked here — argument
normalization is modelled separately above.  Assistant messages produced by
`format_assistant_message` in the tool branch are structured blocks (as with
the Anthropic provider), so only the plain-text contents appended in the
continue/unusual branches enter the text-fallback scan, matching the
`isinstance(content, str)` filter. -/

/-- One scripted tool call: its name and, for `generate_report`, whether the
handler returned `success = True`. -/
structure ToolCall where
  name : String
  reportOk : Bool
  deriving DecidableEq, Repr

/-- One scripted LLM turn: a reply (with `is_complete` flag, tool calls and
text content) or a raised transport error. -/
inductive LLMStep
  | reply (isComplete : Bool) (toolCalls : List ToolCall) (content : String)
  | fail (msg : String)
  deriving DecidableEq, Repr

/-- Mutable loop state: the `tool_calls` counter, plus ghost counters for the
actual number of `_execute_tool` invocations and `llm.chat` calls, the plain
assistant texts accumulated in the transcript, and whether `report_data` has
been captured. -/
structure AgentState where
  toolCalls : Nat
  execs : Nat
  attempts : Nat
  texts : List String
  report : Bool
  deriving DecidableEq, Repr

def initialAgentState : AgentState := ⟨0, 0, 0, [], false⟩

/-- How a run of `_run_agent_loop` ends. -/
inductive LoopOutcome
  | finalized
  | textFallback
  | minimalReport
  | noReportError
  | llmFailure (msg : String)
  deriving DecidableEq, Repr

/-- The rate-limit test on a transport error:
`"rate" in str(e).lower() or "429" in str(e)`. -/
def isRateError (msg : String) : Bool :=
  containsSub (strLower msg) "rate" || containsSub msg "429"

/-- `len("\n".join(texts))`. -/
def combinedLen : List String → Nat
  | [] => 0
  | [s] => s.length
  | s :: t :: rest => s.length + 1 + combinedLen (t :: rest)

/-- The per-response tool-call loop (lines 743-758): the loop body increments
`tool_calls` (line 744) and `_execute_tool` increments it again (line 530);
a successful `generate_report` captures `report_data`. -/
def processToolCalls (st : AgentState) (tcs : List ToolCall) : AgentState :=
  tcs.foldl
    (fun s tc =>
      let s := { s with toolCalls := s.toolCalls + 2, execs := s.execs + 1 }
      if tc.name == "generate_report" && tc.reportOk then { s with report := true } else s)
    st

/-- The code after the `while` loop (max iterations reached): finalize a
captured report, else text fallback, else the minimal report. -/
def postLoop (st : AgentState) : LoopOutcome × AgentState :=
  if st.report then (.finalized, st)
  else if combinedLen st.texts > 50 then (.textFallback, st)
  else (.minimalReport, st)

/-- `_run_agent_loop`'s `while iteration < max_iterations` loop.  The fuel
argument is `maxIter - iteration` (the number of loop entries left), kept
structural so that runs evaluate; `runLoop` below re-establishes the guard.
A non-empty text content is appended to the transcript in the continue-prompt
and unexpected-state branches.  Rate-limit errors sleep and `continue`; all
other errors return. -/
def runLoopF : Nat → Nat → Nat → List LLMStep → AgentState → LoopOutcome × AgentState
  | 0, _, _, _, st => postLoop st
  | fuel + 1, maxIter, iteration, script, st =>
    let iter := iteration + 1
    match script with
    | [] =>
      (.llmFailure "no scripted response", { st with attempts := st.attempts + 1 })
    | step :: rest =>
      let st := { st with attempts := st.attempts + 1 }
      match step with
      | .fail msg =>
        if isRateError msg then runLoopF fuel maxIter iter rest st
        else (.llmFailure msg, st)
      | .reply isComplete tcs content =>
        if isComplete then
          if st.report then (.finalized, st)
          else if st.toolCalls > 0 && iter < maxIter - 1 then
            let st := if content ≠ "" then { st with texts := st.texts ++ [content] } else st
            runLoopF fuel maxIter iter rest st
          else if combinedLen st.texts > 50 then (.textFallback, st)
          else (.noReportError, st)
        else if tcs ≠ [] then
          let st := processToolCalls st tcs
          if st.report then (.finalized, st) else runLoopF fuel maxIter iter rest st
        else
          let st := if content ≠ "" then { st with texts := st.texts ++ [content] } else st
          runLoopF fuel maxIter iter rest st

/-- The loop from iteration counter `iteration`: `maxIter - iteration` loop
entries remain (the `while iteration < max_iterations` guard). -/
def runLoop (maxIter : Nat) (iteration : Nat) (script : List LLMStep) (st : AgentState) :
    LoopOutcome × AgentState :=
  runLoopF (maxIter - iteration) maxIter iteration script st

/-- `_run_agent_loop` entry point: counters start at zero
(`analyze_alert` / `analyze_incident` reset them before the loop). -/
def runAgentLoop (maxIter : Nat) (script : List LLMStep) : LoopOutcome × AgentState :=
  runLoop maxIter 0 script initialAgentState

/-- A script of `k` rate-limited transport errors. -/
def rateErrs (k : Nat) : List LLMStep :=
  List.replicate k (.fail "429 rate limit exceeded")

/-! ## The persistent store (alerts and incidents tables). -/

structure Store where
  alerts : List AlertM
  incidents : List IncidentM
  nextAlertId : Nat
  nextIncidentId : Nat
  deriving DecidableEq, Repr

def findAlert (s : Store) (aid : Nat) : Option AlertM :=
  s.alerts.find? (fun a => a.id == aid)

def findAlertByFingerprint (s : Store) (fp : String) : Option AlertM :=
  s.alerts.find? (fun a => a.fingerprint == fp)

def getIncident (s : Store) (iid : Nat) : Option IncidentM :=
  s.incidents.find? (fun i => i.id == iid)

/-- The member alerts of an incident (`Alert.incident_id == incident.id`). -/
def incidentAlerts (s : Store) (iid : Nat) : List AlertM :=
  s.alerts.filter (fun a => a.incidentId == some iid)

def updAlert (s : Store) (aid : Nat) (f : AlertM → AlertM) : Store :=
  { s with alerts := s.alerts.map (fun a => if a.id == aid then f a else a) }

def updIncident (s : Store) (iid : Nat) (f : IncidentM → IncidentM) : Store :=
  { s with incidents := s.incidents.map (fun i => if i.id == iid then f i else i) }

/-- Store well-formedness: identifiers are unique and below the allocation
counters, and incident references point below the incident counter. -/
structure StoreWF (s : Store) : Prop where
  alertIdsNodup : (s.alerts.map (fun a => a.id)).Nodup
  alertIdsLt : ∀ a ∈ s.alerts, a.id < s.nextAlertId
  incidentIdsNodup : (s.incidents.map (fun i => i.id)).Nodup
  incidentIdsLt : ∀ i ∈ s.incidents, i.id < s.nextIncidentId
  incidentRefsLt : ∀ a ∈ s.alerts, ∀ j, a.incidentId = some j → j < s.nextIncidentId

/-! ## Correlation-service store operations
(src/services/correlation_service.py). -/

def correlationLabels : List String :=
  ["service", "namespace", "node", "instance", "job", "app"]

def infrastructureLabels : List String :=
  ["datacenter", "network_segment", "cluster", "zone", "region", "rack", "network_path"]

def crossReferenceLabels : List String :=
  ["target_node", "destination", "source", "peer", "upstream", "downstream", "dependency"]

def infrastructureAlertPatterns : List String :=
  ["interface", "bgp", "ospf", "network", "route", "switch", "router",
   "connectivity", "partition", "unreachable", "carrier", "link"]

/-- The service-like keys scanned by `_add_alert_to_incident` and
`_create_incident_for_alert`. -/
def serviceKeys : List String := ["service", "app", "job", "device"]

/-- Collect the values of the given label keys, in key order. -/
def labelServices (keys : List String) (labels : Dict String) : List String :=
  keys.foldl
    (fun acc k => match dGet labels k with | some v => acc ++ [v] | none => acc) []

/-- Merge of `affected_labels`: existing values win on conflict. -/
def mergeAffectedLabels (incLabels alertLabels : Dict String) : Dict String :=
  (correlationLabels ++ infrastructureLabels).foldl
    (fun acc k =>
      match dGet alertLabels k with
      | some v => if dHas acc k then acc else dSet acc k v
      | none => acc)
    incLabels

/-- `_incident_has_infra_alert`: pattern scan over the incident title. -/
def incidentHasInfraAlert (inc : IncidentM) : Bool :=
  infrastructureAlertPatterns.any (fun p => containsSub (strLower inc.title) p)

/-- `_generate_correlation_reason`. -/
def generateCorrelationReason (a : AlertM) (inc : IncidentM) : String :=
  let sameLabel := fun (tag l : String) =>
    match dGet a.labels l, dGet inc.affectedLabels l with
    | some x, some y => if x == y then [tag ++ l ++ ": " ++ x] else []
    | _, _ => []
  let reasons :=
    correlationLabels.foldl (fun acc l => acc ++ sameLabel "same " l) []
  let reasons :=
    infrastructureLabels.foldl (fun acc l => acc ++ sameLabel "shared " l) reasons
  let reasons :=
    crossReferenceLabels.foldl
      (fun acc r =>
        match dGet a.labels r with
        | some v =>
          if dGet inc.affectedLabels "node" == some v then
            acc ++ [r ++ " references incident node"]
          else if inc.affectedServices.contains v then
            acc ++ [r ++ " references incident service"]
          else acc
        | none => acc)
      reasons
  let isInfra := infrastructureAlertPatterns.any (fun p => containsSub (strLower a.alertname) p)
  let incIsInfra := incidentHasInfraAlert inc
  let reasons :=
    if isInfra && !incIsInfra then
      if dGet a.labels "datacenter" == dGet inc.affectedLabels "datacenter" then
        reasons ++ ["infrastructure alert in same datacenter"]
      else reasons
    else if incIsInfra && !isInfra then
      reasons ++ ["symptom of infrastructure incident"]
    else reasons
  if reasons ≠ [] then
    "Correlated by " ++ String.intercalate ", " (reasons.take 4)
  else "Correlated by time proximity"

/-- Insertion sort by `starts_at`, modelling the `ORDER BY starts_at ASC` of
`_update_primary_alert`. -/
def insertByStart (a : AlertM) : List AlertM → List AlertM
  | [] => [a]
  | b :: t => if a.startsAt ≤ b.startsAt then a :: b :: t else b :: insertByStart a t

def sortByStartsAt (l : List AlertM) : List AlertM := l.foldr insertByStart []

/-- The aggregate update applied to the target incident when alert `a` is
attached: merge services and labels, upgrade severity monotonically,
regenerate the correlation reason. -/
def attachIncidentF (a : AlertM) (inc : IncidentM) : IncidentM :=
  { inc with
    affectedServices := (inc.affectedServices ++ labelServices serviceKeys a.labels).dedup,
    affectedLabels := mergeAffectedLabels inc.affectedLabels a.labels,
    severity :=
      if severityRank a.severity > severityRank inc.severity then a.severity
      else inc.severity,
    correlationReason := some (generateCorrelationReason a inc) }

/-- Link the alert and apply `attachIncidentF` to the target incident (the
first half of `_add_alert_to_incident`). -/
def addLinkAndUpgrade (s : Store) (a : AlertM) (aid iid : Nat) : Store :=
  updIncident (updAlert s aid (fun x => { x with incidentId := some iid })) iid
    (attachIncidentF a)

/-- `_add_alert_to_incident`: link, merge services and labels, upgrade
severity monotonically, regenerate the correlation reason, re-elect the
primary alert. -/
def addAlertToIncident (s : Store) (aid iid : Nat) : Store :=
  match findAlert s aid with
  | none => s
  | some a =>
    match updatePrimaryAlert (sortByStartsAt
        (incidentAlerts (addLinkAndUpgrade s a aid iid) iid)) with
    | some b =>
      updIncident (addLinkAndUpgrade s a aid iid) iid
        (fun inc => { inc with primaryAlertId := some b.id })
    | none => addLinkAndUpgrade s a aid iid

/-- The incident row constructed by `_create_incident_for_alert` for alert
`a`.  The `ValueError` fallback to warning severity is unreachable because
the two severity enums share their values. -/
def newIncidentOf (s : Store) (a : AlertM) : IncidentM :=
  { id := s.nextIncidentId,
    title := a.alertname,
    status := .opened,
    severity := a.severity,
    startedAt := a.startsAt,
    affectedServices := (labelServices serviceKeys a.labels).dedup,
    affectedLabels :=
      (correlationLabels ++ infrastructureLabels).foldl
        (fun acc k =>
          match dGet a.labels k with
          | some v => dSet acc k v
          | none => acc) [],
    primaryAlertId := some a.id }

/-- `_create_incident_for_alert`. -/
def createIncidentForAlert (s : Store) (aid : Nat) : Store :=
  match findAlert s aid with
  | none => s
  | some a =>
    updAlert
      { s with incidents := s.incidents ++ [newIncidentOf s a],
               nextIncidentId := s.nextIncidentId + 1 }
      aid (fun x => { x with incidentId := some (newIncidentOf s a).id })

/-- `correlate_alert`: the decision of `find_related_incident` (label scoring
plus optional LLM arbitration, both effectful) is abstracted into the `corr`
parameter returning the chosen incident id, or `none` to create a new
incident. -/
def correlateAlert (corr : Store → AlertM → Option Nat) (s : Store) (aid : Nat) : Store :=
  match findAlert s aid with
  | none => s
  | some a =>
    match corr s a with
    | some iid => addAlertToIncident s aid iid
    | none => createIncidentForAlert s aid

/-! ## Incident-service operations (src/services/incident_service.py). -/

/-- `VALID_TRANSITIONS` (lines 17-23). -/
def validTransitions : IncidentStatus → List IncidentStatus
  | .opened => [.analyzing, .resolved, .closed]
  | .analyzing => [.opened, .resolved, .closed]
  | .resolved => [.opened, .closed]
  | .closed => [.opened]

/-- `IncidentService.update_status` on the looked-up incident row; `none`
models the `return None` no-op (the row is left untouched in that case). -/
def updateStatus (inc : IncidentM) (target : IncidentStatus)
    (resolvedAtArg : Option Int) (now : Int) (validateTransition : Bool := true) :
    Option IncidentM :=
  if validateTransition && !((validTransitions inc.status).contains target)
      && target != inc.status then
    none
  else
    some { inc with
      status := target,
      resolvedAt :=
        if target == .resolved && inc.resolvedAt == none then
          some (resolvedAtArg.getD now)
        else inc.resolvedAt }

/-- `IncidentService.compute_affected_services`. -/
def computeAffectedServices (s : Store) (iid : Nat) : List String :=
  ((incidentAlerts s iid).foldl
    (fun acc a => acc ++ labelServices ["service", "app", "job", "container", "device"] a.labels)
    []).dedup

/-- `IncidentService.manual_correlate`: relink the named alerts (silently
skipping unknown ids), recompute `affected_services`, append the manual
correlation note.  The incident severity is not recomputed. -/
def manualCorrelate (s : Store) (iid : Nat) (alertIds : List Nat) : Store :=
  match getIncident s iid with
  | none => s
  | some _ =>
    let s := alertIds.foldl
      (fun st aid =>
        match findAlert st aid with
        | some _ => updAlert st aid (fun a => { a with incidentId := some iid })
        | none => st) s
    let s := updIncident s iid
      (fun inc => { inc with affectedServices := computeAffectedServices s iid })
    updIncident s iid (fun inc =>
      { inc with correlationReason :=
          match inc.correlationReason with
          | none => some "Manual correlation"
          | some r => some (r ++ " + Manual correlation") })

/-! ## Webhook ingestion (src/services/webhook.py). -/

/-- Epoch second of 0002-01-01T00:00:00Z: `endsAt.year > 1` for a timezone
datetime `t` is `t ≥ minValidEndsAt` in epoch seconds. -/
def minValidEndsAt : Int := -62135596800 + 365 * 86400

/-- `am_alert.endsAt if am_alert.endsAt and am_alert.endsAt.year > 1 else None`. -/
def usableEndsAt : Option Int → Option Int
  | none => none
  | some t => if minValidEndsAt ≤ t then some t else none

/-- An alert record of the Alertmanager webhook payload (schemas.py
`AlertManagerAlert`; fields the model does not read are omitted). -/
structure AMAlert where
  status : AlertStatus
  labels : Dict String
  startsAt : Int
  endsAt : Option Int := none
  fingerprint : String
  deriving DecidableEq, Repr

/-- `AlertSeverity(labels.get("severity", "warning").lower())` with the
`ValueError` fallback to warning. -/
def parseSeverity (labels : Dict String) : Severity :=
  let sv := strLower ((dGet labels "severity").getD "warning")
  if sv == "critical" then .critical
  else if sv == "warning" then .warning
  else if sv == "info" then .info
  else .warning

/-- The alert row constructed by `WebhookService._create_alert`.  The
`AlertStatus(...)` conversion is the identity because payload and model
status enums share their values. -/
def amToAlert (s : Store) (am : AMAlert) : AlertM :=
  { id := s.nextAlertId,
    fingerprint := am.fingerprint,
    alertname := (dGet am.labels "alertname").getD "Unknown",
    severity := parseSeverity am.labels,
    status := am.status,
    labels := am.labels,
    startsAt := am.startsAt,
    endsAt := usableEndsAt am.endsAt,
    incidentId := none }

/-- `WebhookService._create_alert`; returns the new row's id. -/
def createAlert (s : Store) (am : AMAlert) : Store × Nat :=
  ({ s with alerts := s.alerts ++ [amToAlert s am], nextAlertId := s.nextAlertId + 1 },
   s.nextAlertId)

/-- `WebhookService._check_incident_resolution`. -/
def checkIncidentResolution (s : Store) (iid : Nat) (now : Int) : Store :=
  match getIncident s iid with
  | none => s
  | some inc =>
    if ((incidentAlerts s iid).filter (fun a => a.status == .firing)).length == 0 then
      if inc.status != .resolved then
        updIncident s iid (fun i => { i with status := .resolved, resolvedAt := some now })
      else s
    else s

/-- The per-row update of `_update_alert_status`: set the new status, stamp
`ends_at` only when resolving. -/
def alertStatusUpdateF (am : AMAlert) (now : Int) (a : AlertM) : AlertM :=
  if am.status == .resolved then
    { a with status := am.status, endsAt := some ((usableEndsAt am.endsAt).getD now) }
  else { a with status := am.status }

/-- `WebhookService._update_alert_status`: update the row, then run the
incident auto-resolve check when the new status is resolved. -/
def updateAlertStatus (s : Store) (aid : Nat) (am : AMAlert) (now : Int) : Store :=
  if am.status == .resolved then
    match (findAlert (updAlert s aid (alertStatusUpdateF am now)) aid).bind
        (fun a => a.incidentId) with
    | some iid => checkIncidentResolution (updAlert s aid (alertStatusUpdateF am now)) iid now
    | none => updAlert s aid (alertStatusUpdateF am now)
  else updAlert s aid (alertStatusUpdateF am now)

/-- The payload with a freshly suffixed fingerprint, as built by
`_create_alert_with_new_fingerprint` (`suffix` stands for `uuid4().hex[:8]`). -/
def amSuffixed (am : AMAlert) (suffix : String) : AMAlert :=
  { am with fingerprint := am.fingerprint ++ "_" ++ suffix }

/-- The re-firing test of `process_webhook` (lines 62-66): the existing row is
resolved, the incoming alert fires, and the row's incident exists and is
resolved. -/
def refireCond (s : Store) (existing : AlertM) (am : AMAlert) : Bool :=
  existing.status == .resolved && am.status == .firing && existing.incidentId.isSome &&
    (match existing.incidentId.bind (getIncident s) with
     | some inc => inc.status == .resolved
     | none => false)

/-- The per-alert body of `WebhookService.process_webhook` (lines 54-91);
`corr` is the correlation decision. -/
def processOneAlert (corr : Store → AlertM → Option Nat) (suffix : String) (now : Int)
    (s : Store) (am : AMAlert) : Store :=
  match findAlertByFingerprint s am.fingerprint with
  | none =>
    correlateAlert corr (createAlert s am).1 (createAlert s am).2
  | some existing =>
    if refireCond s existing am then
      correlateAlert corr (createAlert s (amSuffixed am suffix)).1
        (createAlert s (amSuffixed am suffix)).2
    else if existing.status != am.status then
      updateAlertStatus s existing.id am now
    else s

/-- One step of the batch fold: process the alert and advance the index. -/
def processBatchStep (corr : Store → AlertM → Option Nat) (suffixes : Nat → String)
    (now : Int) (p : Store × Nat) (am : AMAlert) : Store × Nat :=
  (processOneAlert corr (suffixes p.2) now p.1 am, p.2 + 1)

/-- A webhook batch: alerts processed in order; `suffixes i` is the fresh
fingerprint suffix available to the `i`-th alert of the batch. -/
def processBatch (corr : Store → AlertM → Option Nat) (suffixes : Nat → String)
    (now : Int) (s : Store) (ams : List AMAlert) : Store :=
  (ams.foldl (processBatchStep corr suffixes now) (s, 0)).1

/-! ## The invariants the claims quantify over. -/

/-- `sev` is the maximum severity among the alerts of `l` (and is attained). -/
def isMaxSeverityOf (sev : Severity) (l : List AlertM) : Prop :=
  (∀ a ∈ l, severityRank a.severity ≤ severityRank sev) ∧ (∃ a ∈ l, a.severity = sev)

/-- Claim C7's invariant: every incident carries the maximum severity among
its member alerts (the attained-by-a-member conjunct of `isMaxSeverityOf`
also forces every incident to have at least one member). -/
def severityInvariant (s : Store) : Prop :=
  ∀ inc ∈ s.incidents, isMaxSeverityOf inc.severity (incidentAlerts s inc.id)

/-- Claim C8's invariant: `ends_at` is non-null iff the alert is resolved. -/
def endsAtIffResolved (s : Store) : Prop :=
  ∀ a ∈ s.alerts, (a.endsAt ≠ none ↔ a.status = .resolved)

/-! # Dictionary lemmas -/

theorem dGet_dSet_self {V : Type} (d : Dict V) (k : String) (v : V) :
    dGet (dSet d k v) k = some v := by
  induction d with
  | nil => simp [dSet, dGet]
  | cons p t ih =>
    by_cases h : p.1 == k
    · simp [dSet, h, dGet]
    · simp [dSet, h, dGet, ih]

theorem dGet_dSet_ne {V : Type} (d : Dict V) (k k' : String) (v : V) (h : k' ≠ k) :
    dGet (dSet d k' v) k = dGet d k := by
  induction d with
  | nil =>
    have h2 : (k' == k) = false := by simpa using h
    simp [dSet, dGet, h2]
  | cons p t ih =>
    by_cases hp : p.1 = k'
    · have h2 : (k' == k) = false := by simpa using h
      simp [dSet, hp, dGet, h2]
    · have hp' : (p.1 == k') = false := by simpa using hp
      by_cases hk : p.1 = k
      · simp [dSet, hp', dGet, hk, Ne.symm h]
      · have hk' : (p.1 == k) = false := by simpa using hk
        simp [dSet, hp', dGet, hk', ih]

theorem dGet_dDel_ne {V : Type} (d : Dict V) (k k' : String) (h : k' ≠ k) :
    dGet (dDel d k') k = dGet d k := by
  induction d with
  | nil => simp [dDel, dGet]
  | cons p t ih =>
    by_cases hp : p.1 = k'
    · have hk : (p.1 == k) = false := by
        simp only [beq_eq_false_iff_ne, ne_eq]
        exact fun hc => h (hp ▸ hc)
      simp [dDel, hp, dGet, hk, ih, h]
    · have hp' : (p.1 == k') = false := by simpa using hp
      by_cases hk : p.1 = k
      · simp [dDel, hp', dGet, hk, Ne.symm h]
      · have hk' : (p.1 == k) = false := by simpa using hk
        simp [dDel, hp', dGet, hk', ih]

theorem dGet_applyRename_ne (b : Bool) (d : Dict PyVal) (m : String × String)
    (k : String) (h1 : m.1 ≠ k) (h2 : m.2 ≠ k) :
    dGet (applyRename b d m) k = dGet d k := by
  unfold applyRename
  by_cases hA : (dHas d m.1 && !(dHas d m.2)) = true
  · simp only [hA, if_true]
    cases hg : dGet d m.1 with
    | some v => simp [dGet_dSet_ne _ _ _ _ h2, dGet_dDel_ne _ _ _ h1]
    | none => rfl
  · simp only [hA, if_false]
    by_cases hB : (b && dHas d m.1 && dHas d m.2) = true
    · simp [hB, dGet_dDel_ne _ _ _ h1]
    · simp [hB]

theorem applyRename_of_dHas_target (d : Dict PyVal) (m : String × String)
    (h : dHas d m.2 = true) : applyRename false d m = d := by
  unfold applyRename
  simp [h]

theorem applyRename_of_not_dHas_src (b : Bool) (d : Dict PyVal) (m : String × String)
    (h : dHas d m.1 = false) : applyRename b d m = d := by
  unfold applyRename
  simp [h]

/-- Without the duplicate-dropping branch, renaming keeps a key whose value is
present, provided the key is not a rename source. -/
theorem dGet_applyRename_keep (d : Dict PyVal) (m : String × String)
    (k : String) (v : PyVal) (h1 : m.1 ≠ k) (h : dGet d k = some v) :
    dGet (applyRename false d m) k = some v := by
  by_cases h2 : m.2 = k
  · rw [applyRename_of_dHas_target d m (by simp [dHas, h2, h])]
    exact h
  · rw [dGet_applyRename_ne false d m k h1 h2]
    exact h

/-- With both pinned timestamps stored, query-tool normalization ends by
overwriting `start_time` and `end_time` with them. -/
theorem normalizeQuery_pins (qk sk : String) (a b : Int) (input : Dict PyVal) :
    dGet (normalizeQueryToolInput qk sk ⟨some a, some b⟩ input) "start_time"
      = some (.pyInt a) ∧
    dGet (normalizeQueryToolInput qk sk ⟨some a, some b⟩ input) "end_time"
      = some (.pyInt b) := by
  unfold normalizeQueryToolInput
  constructor
  · rw [dGet_dSet_ne _ _ _ _ (by decide), dGet_dSet_self]
  · rw [dGet_dSet_self]

/-- Claim C1 (amended): during an RCA run, `_normalize_tool_input` overwrites
`start_time`/`end_time` of every `query_loki` and `query_cortex` invocation
with the pinned values computed at prompt assembly, whatever the LLM supplied.
For a single-alert run the pinned values are (alert time − 15 min,
max(now, alert time + 5 min)); for an incident run the pinned end is `now`
(not max(now, earliest + 5 min) as the claim states). -/
theorem rca_timestamp_pinning (input : Dict PyVal) (alertTime now : Int)
    (earliest incidentStart : Option Int) :
    (dGet (normalizeToolInput (alertQueryContext alertTime now) "query_loki" input)
        "start_time" = some (.pyInt (alertTime - 15 * 60))
     ∧ dGet (normalizeToolInput (alertQueryContext alertTime now) "query_loki" input)
        "end_time" = some (.pyInt (max now (alertTime + 5 * 60)))
     ∧ dGet (normalizeToolInput (alertQueryContext alertTime now) "query_cortex" input)
        "start_time" = some (.pyInt (alertTime - 15 * 60))
     ∧ dGet (normalizeToolInput (alertQueryContext alertTime now) "query_cortex" input)
        "end_time" = some (.pyInt (max now (alertTime + 5 * 60)))) ∧
    (dGet (normalizeToolInput (incidentQueryContext earliest incidentStart now) "query_loki" input)
        "start_time" = some (.pyInt (incidentQueryWindow earliest incidentStart now).1)
     ∧ dGet (normalizeToolInput (incidentQueryContext earliest incidentStart now) "query_loki" input)
        "end_time" = some (.pyInt now)
     ∧ dGet (normalizeToolInput (incidentQueryContext earliest incidentStart now) "query_cortex" input)
        "start_time" = some (.pyInt (incidentQueryWindow earliest incidentStart now).1)
     ∧ dGet (normalizeToolInput (incidentQueryContext earliest incidentStart now) "query_cortex" input)
        "end_time" = some (.pyInt now)) := by
  have hl : ∀ ctx : QueryContext, normalizeToolInput ctx "query_loki" input
      = normalizeQueryToolInput "logql_query" "logql" ctx input := by
    intro ctx; rfl
  have hc : ∀ ctx : QueryContext, normalizeToolInput ctx "query_cortex" input
      = normalizeQueryToolInput "promql_query" "promql" ctx input := by
    intro ctx; rfl
  refine ⟨⟨?_, ?_, ?_, ?_⟩, ⟨?_, ?_, ?_, ?_⟩⟩ <;>
    simp only [hl, hc, alertQueryContext, incidentQueryContext, alertQueryWindow,
      incidentQueryWindow] <;>
    first
      | exact (normalizeQuery_pins _ _ _ _ _).1
      | exact (normalizeQuery_pins _ _ _ _ _).2

/-- Claim C1 counterexample: for an incident run with earliest alert time 900
and current time 1000, the pinned end written into a `query_loki` call is
1000 (= now), whereas the claim's formula max(now, earliest + 5 min) gives
1200. -/
theorem rca_timestamp_pinning_counterexample :
    dGet (normalizeToolInput (incidentQueryContext (some 900) (some 900) 1000) "query_loki"
        [("end_time", PyVal.pyStr "2023-05-05T00:00:00Z")]) "end_time"
      = some (.pyInt 1000) ∧
    specPinnedEnd 1000 900 = 1200 ∧ ((1000 : Int) ≠ 1200) := by
  refine ⟨?_, by decide, by decide⟩
  rfl

/-! Stage lemmas for `normalizeGenerateReport`. -/

theorem conf_through_genRenames (input : Dict PyVal) (v : PyVal)
    (h : dGet input "confidence_score" = some v) :
    dGet (applyMappings false genRenames input) "confidence_score" = some v := by
  simp only [genRenames, applyMappings, List.foldl]
  exact dGet_applyRename_keep _ _ _ _ (by decide)
    (dGet_applyRename_keep _ _ _ _ (by decide)
      (dGet_applyRename_keep _ _ _ _ (by decide)
        (dGet_applyRename_keep _ _ _ _ (by decide) h)))

theorem summary_through_genRenames (input : Dict PyVal) :
    dGet (applyMappings false genRenames input) "summary" = dGet input "summary" := by
  simp only [genRenames, applyMappings, List.foldl]
  rw [dGet_applyRename_ne false _ _ _ (by decide) (by decide),
      dGet_applyRename_ne false _ _ _ (by decide) (by decide),
      dGet_applyRename_ne false _ _ _ (by decide) (by decide),
      dGet_applyRename_ne false _ _ _ (by decide) (by decide)]

theorem conf_after_genRenames_none (input : Dict PyVal)
    (h : dGet input "confidence_score" = none)
    (hc : dGet input "confidence" = none) (hs : dGet input "score" = none) :
    dGet (applyMappings false genRenames input) "confidence_score" = none := by
  simp only [genRenames, applyMappings, List.foldl]
  set d1 := applyRename false input ("root", "root_cause") with hd1
  have e1c : dGet d1 "confidence" = none := by
    rw [hd1, dGet_applyRename_ne false _ _ _ (by decide) (by decide)]; exact hc
  have e1s : dGet d1 "score" = none := by
    rw [hd1, dGet_applyRename_ne false _ _ _ (by decide) (by decide)]; exact hs
  have e1f : dGet d1 "confidence_score" = none := by
    rw [hd1, dGet_applyRename_ne false _ _ _ (by decide) (by decide)]; exact h
  set d2 := applyRename false d1 ("cause", "root_cause") with hd2
  have e2c : dGet d2 "confidence" = none := by
    rw [hd2, dGet_applyRename_ne false _ _ _ (by decide) (by decide)]; exact e1c
  have e2s : dGet d2 "score" = none := by
    rw [hd2, dGet_applyRename_ne false _ _ _ (by decide) (by decide)]; exact e1s
  have e2f : dGet d2 "confidence_score" = none := by
    rw [hd2, dGet_applyRename_ne false _ _ _ (by decide) (by decide)]; exact e1f
  rw [applyRename_of_not_dHas_src false d2 ("confidence", "confidence_score")
        (by simp [dHas, e2c]),
      applyRename_of_not_dHas_src false d2 ("score", "confidence_score")
        (by simp [dHas, e2s])]
  exact e2f

theorem root_cause_after_genRenames_none (input : Dict PyVal)
    (h : dGet input "root_cause" = none)
    (hr : dGet input "root" = none) (hc : dGet input "cause" = none) :
    dGet (applyMappings false genRenames input) "root_cause" = none := by
  simp only [genRenames, applyMappings, List.foldl]
  have h1 : applyRename false input ("root", "root_cause") = input :=
    applyRename_of_not_dHas_src false input _ (by simp [dHas, hr])
  rw [h1]
  have h2 : applyRename false input ("cause", "root_cause") = input :=
    applyRename_of_not_dHas_src false input _ (by simp [dHas, hc])
  rw [h2, dGet_applyRename_ne false _ _ _ (by decide) (by decide),
      dGet_applyRename_ne false _ _ _ (by decide) (by decide)]
  exact h

theorem dGet_grDefaultRootCause_ne (d : Dict PyVal) (k : String) (h : k ≠ "root_cause") :
    dGet (grDefaultRootCause d) k = dGet d k := by
  unfold grDefaultRootCause
  by_cases hr : dHas d "root_cause" = true <;>
    simp [hr, dGet_dSet_ne _ _ _ _ (Ne.symm h)]

theorem dGet_grDefaultConfidence_ne (d : Dict PyVal) (k : String)
    (h : k ≠ "confidence_score") :
    dGet (grDefaultConfidence d) k = dGet d k := by
  unfold grDefaultConfidence
  by_cases hc : dHas d "confidence_score" = true <;>
    simp [hc, dGet_dSet_ne _ _ _ _ (Ne.symm h)]

theorem dGet_grDefaultSummary_ne (d : Dict PyVal) (k : String) (h : k ≠ "summary") :
    dGet (grDefaultSummary d) k = dGet d k := by
  unfold grDefaultSummary
  by_cases hs : dHas d "summary" = true <;>
    simp [hs, dGet_dSet_ne _ _ _ _ (Ne.symm h)]

theorem dGet_grCoerce_ne (d : Dict PyVal) (k : String) (h : k ≠ "confidence_score") :
    dGet (grCoerce d) k = dGet d k := by
  unfold grCoerce
  rw [dGet_dSet_ne _ _ _ _ (Ne.symm h)]

theorem dGet_grDefaultConfidence_present (d : Dict PyVal) (v : PyVal)
    (h : dGet d "confidence_score" = some v) :
    dGet (grDefaultConfidence d) "confidence_score" = some v := by
  unfold grDefaultConfidence
  simp [dHas, h]

theorem dGet_grDefaultConfidence_missing (d : Dict PyVal)
    (h : dGet d "confidence_score" = none) :
    dGet (grDefaultConfidence d) "confidence_score" = some (.pyInt 50) := by
  unfold grDefaultConfidence
  simp [dHas, h, dGet_dSet_self]

theorem dGet_grDefaultSummary_missing (d : Dict PyVal) (rc : PyVal)
    (hs : dGet d "summary" = none) (hr : dGet d "root_cause" = some rc) :
    dGet (grDefaultSummary d) "summary" = some rc := by
  unfold grDefaultSummary
  simp [dHas, hs, hr, dGet_dSet_self]

theorem grDefaultRootCause_has (d : Dict PyVal) :
    ∃ rc, dGet (grDefaultRootCause d) "root_cause" = some rc := by
  unfold grDefaultRootCause
  by_cases hr : dHas d "root_cause" = true
  · simp only [hr, if_true]
    obtain ⟨v, hv⟩ := Option.isSome_iff_exists.mp hr
    exact ⟨v, hv⟩
  · simp only [hr, if_false]
    exact ⟨_, dGet_dSet_self _ _ _⟩

/-- The full pipeline on a present `confidence_score`: the value is
integer-coerced with fallback 50, and nothing else (no clamping). -/
theorem normalizeGenerateReport_conf_present (input : Dict PyVal) (v : PyVal)
    (h : dGet input "confidence_score" = some v) :
    dGet (normalizeGenerateReport input) "confidence_score"
      = some (.pyInt ((pyToInt v).getD 50)) := by
  unfold normalizeGenerateReport
  have h1 := conf_through_genRenames input v h
  have h2 : dGet (grDefaultRootCause (applyMappings false genRenames input))
      "confidence_score" = some v := by
    rw [dGet_grDefaultRootCause_ne _ _ (by decide)]; exact h1
  have h3 := dGet_grDefaultConfidence_present _ _ h2
  have h4 : dGet (grDefaultSummary (grDefaultConfidence (grDefaultRootCause
      (applyMappings false genRenames input)))) "confidence_score" = some v := by
    rw [dGet_grDefaultSummary_ne _ _ (by decide)]; exact h3
  unfold grCoerce
  rw [h4, dGet_dSet_self]

/-- Claim C4 (amended): for `generate_report`, normalization supplies defaults
for missing fields (`root_cause` := `summary` or a sentinel,
`confidence_score` := 50, `summary` := `root_cause`) and coerces
`confidence_score` to an integer with fallback 50 — but it does NOT clamp: an
integer passes through unchanged, and report validation
(`RCAReportOutput`, `ge=0, le=100`) accepts it iff it lies in [0,100]. -/
theorem report_arg_normalization (input : Dict PyVal) (n : Int) (str : String) :
    (dGet input "confidence_score" = some (.pyInt n) →
        dGet (normalizeGenerateReport input) "confidence_score" = some (.pyInt n)) ∧
    (dGet input "confidence_score" = some (.pyStr str) →
        dGet (normalizeGenerateReport input) "confidence_score"
          = some (.pyInt ((str.trim.toInt?).getD 50))) ∧
    (dGet input "confidence_score" = some .pyNone →
        dGet (normalizeGenerateReport input) "confidence_score" = some (.pyInt 50)) ∧
    (dGet input "confidence_score" = none → dGet input "confidence" = none →
        dGet input "score" = none →
        dGet (normalizeGenerateReport input) "confidence_score" = some (.pyInt 50)) ∧
    (dGet input "root_cause" = none → dGet input "root" = none →
        dGet input "cause" = none →
        dGet (normalizeGenerateReport input) "root_cause"
          = some ((dGet input "summary").getD (.pyStr sentinelRootCause))) ∧
    (dGet input "summary" = none →
        ∃ rc, dGet (normalizeGenerateReport input) "root_cause" = some rc ∧
              dGet (normalizeGenerateReport input) "summary" = some rc) ∧
    (∃ m : Int, dGet (normalizeGenerateReport input) "confidence_score"
        = some (.pyInt m)) ∧
    (rcaConfidenceValid n = true ↔ (0 ≤ n ∧ n ≤ 100)) := by
  refine ⟨?_, ?_, ?_, ?_, ?_, ?_, ?_, ?_⟩
  · intro h
    simpa [pyToInt] using normalizeGenerateReport_conf_present input _ h
  · intro h
    simpa [pyToInt] using normalizeGenerateReport_conf_present input _ h
  · intro h
    simpa [pyToInt] using normalizeGenerateReport_conf_present input _ h
  · intro h hc hs
    have h1 := conf_after_genRenames_none input h hc hs
    have h2 : dGet (grDefaultRootCause (applyMappings false genRenames input))
        "confidence_score" = none := by
      rw [dGet_grDefaultRootCause_ne _ _ (by decide)]; exact h1
    have h3 := dGet_grDefaultConfidence_missing _ h2
    have h4 : dGet (grDefaultSummary (grDefaultConfidence (grDefaultRootCause
        (applyMappings false genRenames input)))) "confidence_score"
        = some (.pyInt 50) := by
      rw [dGet_grDefaultSummary_ne _ _ (by decide)]; exact h3
    unfold normalizeGenerateReport grCoerce
    rw [h4, dGet_dSet_self]
    rfl
  · intro h hr hc
    have h1 := root_cause_after_genRenames_none input h hr hc
    have hsum := summary_through_genRenames input
    have h2 : dGet (grDefaultRootCause (applyMappings false genRenames input))
        "root_cause" = some ((dGet input "summary").getD (.pyStr sentinelRootCause)) := by
      unfold grDefaultRootCause
      simp only [dHas, h1, Option.isSome_none, if_false, hsum]
      exact dGet_dSet_self _ _ _
    unfold normalizeGenerateReport
    rw [dGet_grCoerce_ne _ _ (by decide), dGet_grDefaultSummary_ne _ _ (by decide),
        dGet_grDefaultConfidence_ne _ _ (by decide)]
    exact h2
  · intro h
    have hsum0 : dGet (applyMappings false genRenames input) "summary" = none := by
      rw [summary_through_genRenames]; exact h
    obtain ⟨rc, hrc⟩ := grDefaultRootCause_has (applyMappings false genRenames input)
    have hrc2 : dGet (grDefaultConfidence (grDefaultRootCause
        (applyMappings false genRenames input))) "root_cause" = some rc := by
      rw [dGet_grDefaultConfidence_ne _ _ (by decide)]; exact hrc
    have hsum2 : dGet (grDefaultConfidence (grDefaultRootCause
        (applyMappings false genRenames input))) "summary" = none := by
      rw [dGet_grDefaultConfidence_ne _ _ (by decide),
          dGet_grDefaultRootCause_ne _ _ (by decide)]
      exact hsum0
    refine ⟨rc, ?_, ?_⟩
    · unfold normalizeGenerateReport
      rw [dGet_grCoerce_ne _ _ (by decide), dGet_grDefaultSummary_ne _ _ (by decide)]
      exact hrc2
    · unfold normalizeGenerateReport
      rw [dGet_grCoerce_ne _ _ (by decide)]
      exact dGet_grDefaultSummary_missing _ _ hsum2 hrc2
  · exact ⟨_, dGet_dSet_self _ _ _⟩
  · simp [rcaConfidenceValid]

/-- Claim C4 counterexample: an LLM-supplied `confidence_score` of 150 is not
clamped by normalization — it reaches report validation as 150, which the
`[0,100]` bound then rejects instead of clamping. -/
theorem report_arg_normalization_counterexample :
    dGet (normalizeGenerateReport
        [("root_cause", PyVal.pyStr "rc"), ("summary", PyVal.pyStr "s"),
         ("confidence_score", PyVal.pyInt 150)]) "confidence_score"
      = some (.pyInt 150) ∧
    rcaConfidenceValid 150 = false := by
  exact ⟨rfl, rfl⟩

/-- Witness for `report_arg_normalization` at a concrete input. -/
theorem report_arg_normalization_witness :
    dGet (normalizeGenerateReport [("summary", PyVal.pyStr "s")]) "confidence_score"
      = some (.pyInt 50) ∧
    dGet (normalizeGenerateReport [("summary", PyVal.pyStr "s")]) "root_cause"
      = some (.pyStr "s") := by
  have h := report_arg_normalization [("summary", PyVal.pyStr "s")] 0 ""
  refine ⟨h.2.2.2.1 (by decide) (by decide) (by decide), ?_⟩
  exact h.2.2.2.2.1 (by decide) (by decide) (by decide)

/-- Claim C2 (code bug): every tool call is counted twice — once by the loop
body (rca_agent.py line 744) and once more inside `_execute_tool` (line 530) —
so a run whose LLM makes two tool invocations reports
`metadata.tool_calls = 4`, not 2 as the claim states. -/
theorem agent_tool_calls_double_counted :
    (runAgentLoop 10 [.reply false [⟨"query_loki", false⟩] "",
        .reply false [⟨"generate_report", true⟩] ""]).2.execs = 2 ∧
    (runAgentLoop 10 [.reply false [⟨"query_loki", false⟩] "",
        .reply false [⟨"generate_report", true⟩] ""]).2.toolCalls = 4 ∧
    (runAgentLoop 10 [.reply false [⟨"query_loki", false⟩] "",
        .reply false [⟨"generate_report", true⟩] ""]).1 = .finalized := by
  decide

/-- One rate-limited LLM error consumes one loop entry: the handler sleeps and
`continue`s, but `iteration` was already incremented and is incremented again
on re-entry. -/
theorem rate_consume_step (maxIter iteration : Nat) (msg : String)
    (rest : List LLMStep) (st : AgentState)
    (hit : iteration < maxIter) (hrate : isRateError msg = true) :
    runLoop maxIter iteration (.fail msg :: rest) st
      = runLoop maxIter (iteration + 1) rest { st with attempts := st.attempts + 1 } := by
  unfold runLoop
  have hfuel : maxIter - iteration = (maxIter - (iteration + 1)) + 1 := by omega
  rw [hfuel]
  simp [runLoopF, hrate]

/-- Claim C3 (amended): on an LLM error carrying a rate-limit signal the
orchestrator sleeps and retries, but the retry consumes iterations: running
the loop against `k` leading rate-limit errors is the same as starting it
with `k` iterations already used (and `k` chat attempts recorded). -/
theorem agent_rate_limit_consumes_iterations (k : Nat) :
    ∀ (iteration maxIter : Nat) (rest : List LLMStep) (st : AgentState),
      iteration + k ≤ maxIter →
      runLoop maxIter iteration (rateErrs k ++ rest) st
        = runLoop maxIter (iteration + k) rest { st with attempts := st.attempts + k } := by
  induction k with
  | zero =>
    intro iteration maxIter rest st _
    simp [rateErrs]
  | succ n ih =>
    intro iteration maxIter rest st h
    have hit : iteration < maxIter := by omega
    rw [show rateErrs (n + 1) = LLMStep.fail "429 rate limit exceeded" :: rateErrs n from rfl,
        List.cons_append,
        rate_consume_step maxIter iteration _ _ st hit (by decide),
        ih (iteration + 1) maxIter rest _ (by omega)]
    have e1 : iteration + 1 + n = iteration + (n + 1) := by omega
    have e2 : st.attempts + 1 + n = st.attempts + (n + 1) := by omega
    rw [e1, e2]

/-- Witness for `agent_rate_limit_consumes_iterations` at concrete input. -/
theorem agent_rate_limit_consumes_iterations_witness :
    runLoop 3 0 (rateErrs 2 ++ [LLMStep.reply true [] ""]) initialAgentState
      = runLoop 3 2 [LLMStep.reply true [] ""]
          { initialAgentState with attempts := initialAgentState.attempts + 2 } :=
  agent_rate_limit_consumes_iterations 2 0 3 [LLMStep.reply true [] ""]
    initialAgentState (by decide)

/-- Claim C3 counterexample: with `max_iterations = 1` a response that would
produce the report succeeds, but prefixing a single rate-limited error makes
the run fall to the minimal report after only one chat attempt — the retry
consumed the only available iteration, contradicting "retries do not reduce
the number of iterations available". -/
theorem agent_rate_retry_counterexample :
    (runAgentLoop 1 [.reply false [⟨"generate_report", true⟩] ""]).1 = .finalized ∧
    (runAgentLoop 1 [.fail "429 Too Many Requests",
        .reply false [⟨"generate_report", true⟩] ""]).1 = .minimalReport ∧
    (runAgentLoop 1 [.fail "429 Too Many Requests",
        .reply false [⟨"generate_report", true⟩] ""]).2.attempts = 1 := by
  decide

/-- Claim C5: candidate search selects exactly the incidents whose
`started_at` lies in the closed window `[starts_at − W, starts_at + W]` with
status open or analyzing; an incident exactly `W` seconds away is a
candidate, one `W + 1` seconds away is not. -/
theorem correlation_candidate_selection (incidents : List IncidentM) (a w : Int)
    (inc : IncidentM) :
    (inc ∈ findCandidateIncidents incidents a w ↔
      (inc ∈ incidents ∧ (a - w ≤ inc.startedAt ∧ inc.startedAt ≤ a + w) ∧
        (inc.status = .opened ∨ inc.status = .analyzing))) ∧
    (0 ≤ w → (inc.status = .opened ∨ inc.status = .analyzing) →
      ((inc.startedAt = a - w ∨ inc.startedAt = a + w) →
          inc ∈ findCandidateIncidents [inc] a w) ∧
      ((inc.startedAt = a + (w + 1) ∨ inc.startedAt = a - (w + 1)) →
          inc ∉ findCandidateIncidents [inc] a w)) := by
  have hchar : ∀ (l : List IncidentM),
      inc ∈ findCandidateIncidents l a w ↔
        (inc ∈ l ∧ (a - w ≤ inc.startedAt ∧ inc.startedAt ≤ a + w) ∧
          (inc.status = .opened ∨ inc.status = .analyzing)) := by
    intro l
    simp only [findCandidateIncidents, List.mem_filter, Bool.and_eq_true,
      inCandidateWindow, isCandidateStatus, decide_eq_true_eq, Bool.or_eq_true,
      beq_iff_eq]
  refine ⟨hchar incidents, ?_⟩
  intro hw hstat
  constructor
  · intro hb
    rw [hchar [inc]]
    exact ⟨List.mem_singleton.mpr rfl, by omega, hstat⟩
  · intro hb hmem
    rw [hchar [inc]] at hmem
    omega

/-- Witness for `correlation_candidate_selection` at a concrete boundary
input. -/
theorem correlation_candidate_selection_witness :
    (⟨0, "", .opened, .warning, 300, none, [], [], none, none⟩ : IncidentM) ∈
      findCandidateIncidents [⟨0, "", .opened, .warning, 300, none, [], [], none, none⟩]
        0 300 := by
  have h := correlation_candidate_selection
    [⟨0, "", .opened, .warning, 300, none, [], [], none, none⟩] 0 300
    ⟨0, "", .opened, .warning, 300, none, [], [], none, none⟩
  exact (h.2 (by decide) (by decide)).1 (by decide)

/-- Claim C9 counterexample: requesting the incident's current status (here
open → open, a pair outside the §4.8 table) does not return null — the code's
validation explicitly lets `status == incident.status` through and returns
the (unchanged) incident. -/
theorem incident_update_status_counterexample :
    updateStatus ⟨0, "", .opened, .warning, 0, none, [], [], none, none⟩
        .opened none 0 true
      = some ⟨0, "", .opened, .warning, 0, none, [], [], none, none⟩ := by
  decide

/-- Claim C9 (amended): a requested transition outside the table with a target
different from the current status returns null (and the row is untouched); a
target equal to the current status passes validation and returns the incident
with its status unchanged (resolved_at also unchanged unless the status is
resolved with resolved_at still null, which is then stamped); repeating a
valid transition returns the same row unchanged. -/
theorem incident_update_status (inc : IncidentM) (target : IncidentStatus)
    (rArg rArg2 : Option Int) (now now2 : Int) :
    (target ∉ validTransitions inc.status → target ≠ inc.status →
        updateStatus inc target rArg now true = none) ∧
    ((updateStatus inc inc.status rArg now true).isSome = true ∧
      (∀ inc2, updateStatus inc inc.status rArg now true = some inc2 →
        inc2.status = inc.status ∧
        (inc.resolvedAt ≠ none → inc2.resolvedAt = inc.resolvedAt) ∧
        (inc.status ≠ .resolved → inc2.resolvedAt = inc.resolvedAt))) ∧
    (∀ inc1, updateStatus inc target rArg now true = some inc1 →
        updateStatus inc1 target rArg2 now2 true = some inc1) := by
  refine ⟨?_, ⟨?_, ?_⟩, ?_⟩
  · intro hnot hne
    have h1 : ((validTransitions inc.status).contains target) = false := by
      simpa using hnot
    have h2 : (target != inc.status) = true := by simpa using hne
    unfold updateStatus
    rw [h1, h2]
    rfl
  · unfold updateStatus
    simp
  · intro inc2 h2
    unfold updateStatus at h2
    simp only [bne_self_eq_false, Bool.and_false, Bool.false_eq_true, if_false,
      Option.some.injEq] at h2
    subst h2
    refine ⟨rfl, ?_, ?_⟩
    · intro hr
      have : (inc.resolvedAt == none) = false := by
        cases hx : inc.resolvedAt with
        | none => exact absurd hx hr
        | some v => rfl
      simp [this]
    · intro hs
      have : (inc.status == IncidentStatus.resolved) = false := by simpa using hs
      simp [this]
  · intro inc1 h1
    unfold updateStatus at h1
    by_cases hcond : (true && !((validTransitions inc.status).contains target)
        && (target != inc.status)) = true
    · rw [if_pos hcond] at h1
      exact absurd h1 (by simp)
    · rw [if_neg (by simpa using hcond)] at h1
      have hinc1 : inc1 = { inc with
          status := target,
          resolvedAt :=
            if target == .resolved && inc.resolvedAt == none then
              some (rArg.getD now)
            else inc.resolvedAt } := by
        exact (Option.some.inj h1).symm
      unfold updateStatus
      have hst : inc1.status = target := by rw [hinc1]
      have hne2 : (target != inc1.status) = false := by simp [hst]
      rw [if_neg (by simp [hne2])]
      have hres : (target == IncidentStatus.resolved && inc1.resolvedAt == none) = false := by
        by_cases ht : target = IncidentStatus.resolved
        · have : inc1.resolvedAt ≠ none := by
            rw [hinc1]
            simp only [ht]
            by_cases hra : inc.resolvedAt = none
            · simp [hra]
            · simp [hra]
          cases hx : inc1.resolvedAt with
          | none => exact absurd hx this
          | some v => simp
        · have : (target == IncidentStatus.resolved) = false := by simpa using ht
          simp [this]

      rw [hres]
      simp only [Bool.false_eq_true, if_false]
      rw [← hst]

/-! Lemmas for the primary-alert election (C6). -/

theorem electionScore_eq_beq (e : Int) (a : AlertM) :
    electionScore e a
      = calculateCausalScore a + (if a.startsAt == e then 1 else 0) := by
  unfold electionScore
  by_cases h : a.startsAt = e <;> simp [h]

theorem electionScore_le_add_one (e : Int) (a : AlertM) :
    electionScore e a ≤ calculateCausalScore a + 1 := by
  unfold electionScore
  by_cases h : a.startsAt = e <;> simp [h]

theorem le_electionScore (e : Int) (a : AlertM) :
    calculateCausalScore a ≤ electionScore e a := by
  unfold electionScore
  by_cases h : a.startsAt = e <;> simp [h]

/-- Invariant of the election fold: the stored score is the causal score of
the stored best (the time bonus is dropped on update, exactly as in the
source), yet the running best maximizes the bonused score over everything
seen. -/
theorem election_fold_spec (e : Int) (l : List AlertM) :
    ∀ b : AlertM,
      (l.foldl (electionStep e) (b, calculateCausalScore b)).2
        = calculateCausalScore (l.foldl (electionStep e) (b, calculateCausalScore b)).1 ∧
      ((l.foldl (electionStep e) (b, calculateCausalScore b)).1 = b ∨
        (l.foldl (electionStep e) (b, calculateCausalScore b)).1 ∈ l) ∧
      electionScore e b
        ≤ electionScore e (l.foldl (electionStep e) (b, calculateCausalScore b)).1 ∧
      ∀ a ∈ l, electionScore e a
        ≤ electionScore e (l.foldl (electionStep e) (b, calculateCausalScore b)).1 := by
  induction l with
  | nil => intro b; simp
  | cons c t ih =>
    intro b
    have hstep : ∀ p : AlertM × Nat, (c :: t).foldl (electionStep e) p
        = t.foldl (electionStep e) (electionStep e p c) := by
      intro p; rfl
    by_cases hc : calculateCausalScore c + (if c.startsAt == e then 1 else 0)
        > calculateCausalScore b
    · have hsel : electionStep e (b, calculateCausalScore b) c
          = (c, calculateCausalScore c) := by
        unfold electionStep
        rw [if_pos hc]
      rw [hstep, hsel]
      obtain ⟨ih1, ih2, ih3, ih4⟩ := ih c
      have hbc : electionScore e b ≤ electionScore e c := by
        have h1 := electionScore_le_add_one e b
        have h2 := electionScore_eq_beq e c
        omega
      refine ⟨ih1, ?_, le_trans hbc ih3, ?_⟩
      · rcases ih2 with h | h
        · exact Or.inr (by rw [h]; exact List.mem_cons_self c t)
        · exact Or.inr (List.mem_cons_of_mem c h)
      · intro a ha
        rcases List.mem_cons.mp ha with h | h
        · rw [h]; exact ih3
        · exact ih4 a h
    · have hsel : electionStep e (b, calculateCausalScore b) c
          = (b, calculateCausalScore b) := by
        unfold electionStep
        rw [if_neg hc]
      rw [hstep, hsel]
      obtain ⟨ih1, ih2, ih3, ih4⟩ := ih b
      have hcb : electionScore e c ≤ electionScore e b := by
        have h1 := electionScore_eq_beq e c
        have h2 := le_electionScore e b
        omega
      refine ⟨ih1, ?_, ih3, ?_⟩
      · rcases ih2 with h | h
        · exact Or.inl h
        · exact Or.inr (List.mem_cons_of_mem c h)
      · intro a ha
        rcases List.mem_cons.mp ha with h | h
        · rw [h]; exact le_trans hcb ih3
        · exact ih4 a h

/-- Claim C6: over members sorted ascending by `starts_at` (as the database
query returns them — the hypothesis states the head is earliest), the elected
primary alert is a member maximizing the causal score plus the critical bonus
plus 1 for alerts starting at the earliest member time. -/
theorem primary_alert_election (a0 : AlertM) (rest : List AlertM)
    (_hmin : ∀ a ∈ rest, a0.startsAt ≤ a.startsAt) :
    ∃ b, updatePrimaryAlert (a0 :: rest) = some b ∧ b ∈ a0 :: rest ∧
      ∀ a ∈ a0 :: rest, electionScore a0.startsAt a ≤ electionScore a0.startsAt b := by
  obtain ⟨h1, h2, h3, h4⟩ := election_fold_spec a0.startsAt rest a0
  refine ⟨(rest.foldl (electionStep a0.startsAt) (a0, calculateCausalScore a0)).1,
    rfl, ?_, ?_⟩
  · rcases h2 with h | h
    · rw [h]; exact List.mem_cons_self a0 rest
    · exact List.mem_cons_of_mem a0 h
  · intro a ha
    rcases List.mem_cons.mp ha with h | h
    · rw [h]; exact h3
    · exact h4 a h

/-- Witness for `primary_alert_election` at a concrete member list. -/
theorem primary_alert_election_witness :
    updatePrimaryAlert
        [⟨0, "f0", "HealthCheckFailed", .warning, .firing, [], 0, none, none⟩,
         ⟨1, "f1", "BGPDown", .critical, .firing, [], 5, none, none⟩]
      = some ⟨1, "f1", "BGPDown", .critical, .firing, [], 5, none, none⟩ ∧
    electionScore 0 ⟨0, "f0", "HealthCheckFailed", .warning, .firing, [], 0, none, none⟩
      ≤ electionScore 0 ⟨1, "f1", "BGPDown", .critical, .firing, [], 5, none, none⟩ := by
  obtain ⟨b, hb, hmem, hmax⟩ := primary_alert_election
    ⟨0, "f0", "HealthCheckFailed", .warning, .firing, [], 0, none, none⟩
    [⟨1, "f1", "BGPDown", .critical, .firing, [], 5, none, none⟩] (by decide)
  have hcomp : updatePrimaryAlert
      [⟨0, "f0", "HealthCheckFailed", .warning, .firing, [], 0, none, none⟩,
       ⟨1, "f1", "BGPDown", .critical, .firing, [], 5, none, none⟩]
      = some ⟨1, "f1", "BGPDown", .critical, .firing, [], 5, none, none⟩ := by decide
  refine ⟨hcomp, ?_⟩
  have hb2 : b = ⟨1, "f1", "BGPDown", .critical, .firing, [], 5, none, none⟩ := by
    have := hb.symm.trans hcomp
    exact Option.some.inj this
  exact hb2 ▸ hmax _ (List.mem_cons_self _ _)

/-- Witness for `incident_update_status` at concrete inputs. -/
theorem incident_update_status_witness :
    updateStatus ⟨1, "", .resolved, .critical, 0, some 9, [], [], none, none⟩
        .analyzing none 5 true = none ∧
    updateStatus ⟨2, "", .opened, .warning, 0, none, [], [], none, none⟩
        .resolved none 7 true
      = some ⟨2, "", .resolved, .warning, 0, some 7, [], [], none, none⟩ := by
  constructor
  · exact (incident_update_status
      ⟨1, "", .resolved, .critical, 0, some 9, [], [], none, none⟩
      .analyzing none none 5 5).1 (by decide) (by decide)
  · have h := (incident_update_status
      ⟨2, "", .opened, .warning, 0, none, [], [], none, none⟩
      .resolved none none 7 7).2.2
      ⟨2, "", .resolved, .warning, 0, some 7, [], [], none, none⟩ (by decide)
    decide

/-! # Store lemmas for the webhook / correlation claims -/

theorem filter_append_single {α : Type} (p : α → Bool) (l : List α) (a : α)
    (h : p a = false) : (l ++ [a]).filter p = l.filter p := by
  rw [List.filter_append]
  simp [List.filter, h]

theorem filter_map_comm {α : Type} (g : α → α) (p : α → Bool) (l : List α)
    (h : ∀ y, p (g y) = p y) : (l.map g).filter p = (l.filter p).map g := by
  induction l with
  | nil => rfl
  | cons a t ih =>
    by_cases ha : p a = true
    · simp [List.filter_cons, h a, ha, ih]
    · have ha' : p a = false := by simpa using ha
      simp [List.filter_cons, h a, ha', ih]

theorem mem_updAlert_of_ne (s : Store) (aid : Nat) (f : AlertM → AlertM) (x : AlertM)
    (hx : x ∈ s.alerts) (hne : x.id ≠ aid) : x ∈ (updAlert s aid f).alerts := by
  have hkeep : (if x.id == aid then f x else x) = x := by simp [hne]
  rw [show (updAlert s aid f).alerts
      = s.alerts.map (fun a => if a.id == aid then f a else a) from rfl, ← hkeep]
  exact List.mem_map_of_mem _ hx

theorem mem_updAlert_self (s : Store) (aid : Nat) (f : AlertM → AlertM) (x : AlertM)
    (hx : x ∈ s.alerts) (hid : x.id = aid) : f x ∈ (updAlert s aid f).alerts := by
  have hkeep : (if x.id == aid then f x else x) = f x := by simp [hid]
  rw [show (updAlert s aid f).alerts
      = s.alerts.map (fun a => if a.id == aid then f a else a) from rfl, ← hkeep]
  exact List.mem_map_of_mem _ hx

theorem mem_updAlert_iff (s : Store) (aid : Nat) (f : AlertM → AlertM) (x : AlertM) :
    x ∈ (updAlert s aid f).alerts
      ↔ ∃ y ∈ s.alerts, x = if y.id == aid then f y else y := by
  rw [show (updAlert s aid f).alerts
      = s.alerts.map (fun a => if a.id == aid then f a else a) from rfl]
  simp only [List.mem_map]
  constructor
  · rintro ⟨y, hy, hxy⟩; exact ⟨y, hy, hxy.symm⟩
  · rintro ⟨y, hy, hxy⟩; exact ⟨y, hy, hxy.symm⟩

theorem mem_updIncident_iff (s : Store) (iid : Nat) (f : IncidentM → IncidentM)
    (x : IncidentM) :
    x ∈ (updIncident s iid f).incidents
      ↔ ∃ y ∈ s.incidents, x = if y.id == iid then f y else y := by
  rw [show (updIncident s iid f).incidents
      = s.incidents.map (fun i => if i.id == iid then f i else i) from rfl]
  simp only [List.mem_map]
  constructor
  · rintro ⟨y, hy, hxy⟩; exact ⟨y, hy, hxy.symm⟩
  · rintro ⟨y, hy, hxy⟩; exact ⟨y, hy, hxy.symm⟩

/-- Linking a fresh (unassigned) alert: the member set of incident `j` gains
exactly the linked alert when `j` is the target, and is unchanged otherwise. -/
theorem incidentAlerts_link (s : Store) (a : AlertM) (iid j : Nat)
    (ha : a ∈ s.alerts) (hfresh : a.incidentId = none)
    (huniq : (s.alerts.map (fun x => x.id)).Nodup) (x : AlertM) :
    x ∈ incidentAlerts (updAlert s a.id (fun y => { y with incidentId := some iid })) j
      ↔ (x ∈ incidentAlerts s j ∨ (j = iid ∧ x = { a with incidentId := some iid })) := by
  unfold incidentAlerts
  simp only [List.mem_filter]
  constructor
  · rintro ⟨hxmem, hxlink⟩
    obtain ⟨y, hy, hxy⟩ := (mem_updAlert_iff s a.id _ x).mp hxmem
    by_cases hyid : y.id = a.id
    · have hya : y = a := List.inj_on_of_nodup_map huniq hy ha hyid
      subst hya
      simp only [beq_self_eq_true, if_pos] at hxy
      subst hxy
      have hj : (some iid : Option Nat) = some j := by simpa using hxlink
      exact Or.inr ⟨(Option.some.inj hj).symm, rfl⟩
    · have hne : (y.id == a.id) = false := by simpa using hyid
      rw [hne] at hxy
      simp only [Bool.false_eq_true, if_false] at hxy
      subst hxy
      exact Or.inl ⟨hy, hxlink⟩
  · rintro (⟨hxmem, hxlink⟩ | ⟨hj, hx⟩)
    · have hxne : x.id ≠ a.id := by
        intro hid
        have hxa : x = a := List.inj_on_of_nodup_map huniq hxmem ha hid
        rw [hxa, hfresh] at hxlink
        simp at hxlink
      exact ⟨mem_updAlert_of_ne s a.id _ x hxmem hxne, hxlink⟩
    · subst hj; subst hx
      refine ⟨mem_updAlert_self s a.id _ a ha rfl, by simp⟩

/-- An update that keeps `incident_id` reshapes every member list pointwise. -/
theorem incidentAlerts_updAlert_pointwise (s : Store) (aid : Nat)
    (f : AlertM → AlertM) (j : Nat)
    (hpres : ∀ y, (f y).incidentId = y.incidentId) :
    incidentAlerts (updAlert s aid f) j
      = (incidentAlerts s j).map (fun y => if y.id == aid then f y else y) := by
  unfold incidentAlerts
  rw [show (updAlert s aid f).alerts
      = s.alerts.map (fun a => if a.id == aid then f a else a) from rfl]
  exact filter_map_comm _ _ _ (by
    intro y
    by_cases hy : (y.id == aid) = true <;> simp [hy, hpres])

theorem isMaxSeverityOf_congr (sev : Severity) (l l' : List AlertM)
    (h : ∀ x, x ∈ l ↔ x ∈ l') (hm : isMaxSeverityOf sev l) :
    isMaxSeverityOf sev l' := by
  obtain ⟨hb, w, hw, hws⟩ := hm
  exact ⟨fun a ha => hb a ((h a).mpr ha), w, (h w).mp hw, hws⟩

theorem isMaxSeverityOf_map (sev : Severity) (l : List AlertM) (g : AlertM → AlertM)
    (hsev : ∀ y, (g y).severity = y.severity) (hm : isMaxSeverityOf sev l) :
    isMaxSeverityOf sev (l.map g) := by
  obtain ⟨hb, w, hw, hws⟩ := hm
  constructor
  · intro x hx
    obtain ⟨y, hy, hxy⟩ := List.mem_map.mp hx
    rw [← hxy, hsev y]
    exact hb y hy
  · exact ⟨g w, List.mem_map_of_mem g hw, by rw [hsev w, hws]⟩

/-! Well-formedness preservation. -/

theorem storeWF_updAlert (s : Store) (aid : Nat) (f : AlertM → AlertM)
    (hwf : StoreWF s) (hid : ∀ y, (f y).id = y.id)
    (href : ∀ y ∈ s.alerts, ∀ j, (f y).incidentId = some j →
        y.incidentId = some j ∨ j < s.nextIncidentId) :
    StoreWF (updAlert s aid f) := by
  have hmapid : ((updAlert s aid f).alerts.map (fun a => a.id))
      = s.alerts.map (fun a => a.id) := by
    rw [show (updAlert s aid f).alerts
        = s.alerts.map (fun a => if a.id == aid then f a else a) from rfl,
      List.map_map]
    apply List.map_congr_left
    intro a _
    by_cases h : a.id = aid <;> simp [h, hid]
  refine ⟨?_, ?_, hwf.incidentIdsNodup, hwf.incidentIdsLt, ?_⟩
  · rw [hmapid]; exact hwf.alertIdsNodup
  · intro x hx
    obtain ⟨y, hy, hxy⟩ := (mem_updAlert_iff s aid f x).mp hx
    by_cases h : (y.id == aid) = true
    · rw [hxy]
      simp only [h, if_pos, hid y]
      exact hwf.alertIdsLt y hy
    · rw [hxy]
      simp only [h, Bool.false_eq_true, if_false]
      exact hwf.alertIdsLt y hy
  · intro x hx j hj
    obtain ⟨y, hy, hxy⟩ := (mem_updAlert_iff s aid f x).mp hx
    by_cases h : (y.id == aid) = true
    · rw [hxy] at hj
      simp only [h, if_pos] at hj
      rcases href y hy j hj with hcase | hcase
      · exact hwf.incidentRefsLt y hy j hcase
      · exact hcase
    · rw [hxy] at hj
      simp only [h, Bool.false_eq_true, if_false] at hj
      exact hwf.incidentRefsLt y hy j hj

theorem storeWF_updIncident (s : Store) (iid : Nat) (f : IncidentM → IncidentM)
    (hwf : StoreWF s) (hid : ∀ y, (f y).id = y.id) :
    StoreWF (updIncident s iid f) := by
  have hmapid : ((updIncident s iid f).incidents.map (fun i => i.id))
      = s.incidents.map (fun i => i.id) := by
    rw [show (updIncident s iid f).incidents
        = s.incidents.map (fun i => if i.id == iid then f i else i) from rfl,
      List.map_map]
    apply List.map_congr_left
    intro i _
    by_cases h : i.id = iid <;> simp [h, hid]
  refine ⟨hwf.alertIdsNodup, hwf.alertIdsLt, ?_, ?_, hwf.incidentRefsLt⟩
  · rw [hmapid]; exact hwf.incidentIdsNodup
  · intro x hx
    obtain ⟨y, hy, hxy⟩ := (mem_updIncident_iff s iid f x).mp hx
    by_cases h : (y.id == iid) = true
    · rw [hxy]
      simp only [h, if_pos, hid y]
      exact hwf.incidentIdsLt y hy
    · rw [hxy]
      simp only [h, Bool.false_eq_true, if_false]
      exact hwf.incidentIdsLt y hy

theorem storeWF_createAlert (s : Store) (am : AMAlert) (hwf : StoreWF s) :
    StoreWF (createAlert s am).1 := by
  refine ⟨?_, ?_, hwf.incidentIdsNodup, hwf.incidentIdsLt, ?_⟩
  · rw [show (createAlert s am).1.alerts.map (fun a => a.id)
        = s.alerts.map (fun a => a.id) ++ [s.nextAlertId] by
      simp [createAlert, amToAlert]]
    apply List.Nodup.append hwf.alertIdsNodup (List.nodup_singleton _)
    intro x hx hx2
    rw [List.mem_singleton.mp hx2] at hx
    obtain ⟨y, hy, hyid⟩ := List.mem_map.mp hx
    exact absurd hyid (Nat.ne_of_lt (hwf.alertIdsLt y hy))
  · intro x hx
    rcases List.mem_append.mp hx with h | h
    · exact Nat.lt_trans (hwf.alertIdsLt x h) (Nat.lt_succ_self _)
    · rw [List.mem_singleton.mp h]
      exact Nat.lt_succ_self _
  · intro x hx j hj
    rcases List.mem_append.mp hx with h | h
    · exact hwf.incidentRefsLt x h j hj
    · rw [List.mem_singleton.mp h] at hj
      simp [amToAlert] at hj

theorem storeWF_createIncidentForAlert (s : Store) (aid : Nat) (hwf : StoreWF s) :
    StoreWF (createIncidentForAlert s aid) := by
  unfold createIncidentForAlert
  cases hfa : findAlert s aid with
  | none => exact hwf
  | some a =>
    have hwf1 : StoreWF { s with
        incidents := s.incidents ++ [newIncidentOf s a],
        nextIncidentId := s.nextIncidentId + 1 } := by
      refine ⟨hwf.alertIdsNodup, hwf.alertIdsLt, ?_, ?_, ?_⟩
      · have hmap : (s.incidents ++ [newIncidentOf s a]).map (fun i => i.id) = s.incidents.map (fun i => i.id) ++ [s.nextIncidentId] := by simp [newIncidentOf]
        show ((s.incidents ++ [newIncidentOf s a]).map (fun i => i.id)).Nodup
        rw [hmap]
        apply List.Nodup.append hwf.incidentIdsNodup (List.nodup_singleton _)
        intro x hx hx2
        rw [List.mem_singleton.mp hx2] at hx
        obtain ⟨y, hy, hyid⟩ := List.mem_map.mp hx
        exact absurd hyid (Nat.ne_of_lt (hwf.incidentIdsLt y hy))
      · intro x hx
        rcases List.mem_append.mp hx with h | h
        · exact Nat.lt_trans (hwf.incidentIdsLt x h) (Nat.lt_succ_self _)
        · rw [List.mem_singleton.mp h]
          exact Nat.lt_succ_self _
      · intro x hx j hj
        exact Nat.lt_trans (hwf.incidentRefsLt x hx j hj) (Nat.lt_succ_self _)
    refine storeWF_updAlert _ aid _ hwf1 (fun y => rfl) ?_
    intro y _ j hj
    right
    have hjv : j = s.nextIncidentId := Option.some.inj hj.symm
    rw [hjv]
    exact Nat.lt_succ_self _

theorem storeWF_addLinkAndUpgrade (s : Store) (a : AlertM) (aid iid : Nat)
    (hwf : StoreWF s) (hbound : iid < s.nextIncidentId) :
    StoreWF (addLinkAndUpgrade s a aid iid) := by
  unfold addLinkAndUpgrade
  refine storeWF_updIncident _ iid _ ?_ (fun y => rfl)
  refine storeWF_updAlert s aid _ hwf (fun y => rfl) ?_
  intro y _ j hj
  right
  rw [← Option.some.inj hj]
  exact hbound

theorem storeWF_addAlertToIncident (s : Store) (aid iid : Nat)
    (hwf : StoreWF s) (hbound : iid < s.nextIncidentId) :
    StoreWF (addAlertToIncident s aid iid) := by
  unfold addAlertToIncident
  split
  · exact hwf
  · rename_i a hfa
    split
    · exact storeWF_updIncident _ iid _
        (storeWF_addLinkAndUpgrade s a aid iid hwf hbound) (fun y => rfl)
    · exact storeWF_addLinkAndUpgrade s a aid iid hwf hbound

theorem storeWF_checkIncidentResolution (s : Store) (iid : Nat) (now : Int)
    (hwf : StoreWF s) : StoreWF (checkIncidentResolution s iid now) := by
  unfold checkIncidentResolution
  split
  · exact hwf
  · split
    · split
      · exact storeWF_updIncident _ iid _ hwf (fun y => rfl)
      · exact hwf
    · exact hwf

theorem storeWF_updateAlertStatus (s : Store) (aid : Nat) (am : AMAlert) (now : Int)
    (hwf : StoreWF s) : StoreWF (updateAlertStatus s aid am now) := by
  have hwf1 : StoreWF (updAlert s aid (alertStatusUpdateF am now)) := by
    refine storeWF_updAlert s aid _ hwf ?_ ?_
    · intro y
      unfold alertStatusUpdateF
      by_cases h : (am.status == AlertStatus.resolved) = true <;> simp [h]
    · intro y _ j hj
      left
      unfold alertStatusUpdateF at hj
      by_cases h : (am.status == AlertStatus.resolved) = true
      · rw [if_pos h] at hj; exact hj
      · rw [if_neg h] at hj; exact hj
  unfold updateAlertStatus
  split
  · split
    · exact storeWF_checkIncidentResolution _ _ now hwf1
    · exact hwf1
  · exact hwf1

theorem storeWF_correlateAlert (corr : Store → AlertM → Option Nat)
    (hcorr : ∀ st a i, corr st a = some i → i < st.nextIncidentId)
    (s : Store) (aid : Nat) (hwf : StoreWF s) :
    StoreWF (correlateAlert corr s aid) := by
  unfold correlateAlert
  split
  · exact hwf
  · rename_i a hfa
    split
    · rename_i iid hc
      exact storeWF_addAlertToIncident s aid iid hwf (hcorr s a iid hc)
    · exact storeWF_createIncidentForAlert s aid hwf

theorem storeWF_processOneAlert (corr : Store → AlertM → Option Nat)
    (hcorr : ∀ st a i, corr st a = some i → i < st.nextIncidentId)
    (suffix : String) (now : Int) (s : Store) (am : AMAlert) (hwf : StoreWF s) :
    StoreWF (processOneAlert corr suffix now s am) := by
  unfold processOneAlert
  split
  · exact storeWF_correlateAlert corr hcorr _ _ (storeWF_createAlert s am hwf)
  · split
    · exact storeWF_correlateAlert corr hcorr _ _ (storeWF_createAlert s _ hwf)
    · split
      · exact storeWF_updateAlertStatus s _ am now hwf
      · exact hwf

/-! Severity-invariant preservation through ingestion and correlation. -/

theorem severityInvariant_updIncident_pres (s : Store) (iid : Nat)
    (f : IncidentM → IncidentM)
    (hsev : ∀ y, (f y).severity = y.severity) (hid : ∀ y, (f y).id = y.id)
    (hinv : severityInvariant s) : severityInvariant (updIncident s iid f) := by
  intro inc hmem
  obtain ⟨y, hy, hxy⟩ := (mem_updIncident_iff s iid f inc).mp hmem
  have hmembers : incidentAlerts (updIncident s iid f) inc.id
      = incidentAlerts s inc.id := rfl
  rw [hmembers, hxy]
  by_cases h : (y.id == iid) = true
  · simp only [h, if_pos]
    rw [hsev y, hid y]
    exact hinv y hy
  · simp only [h, Bool.false_eq_true, if_false]
    exact hinv y hy

theorem severityInvariant_updAlert_pres (s : Store) (aid : Nat) (f : AlertM → AlertM)
    (hincid : ∀ y, (f y).incidentId = y.incidentId)
    (hsev : ∀ y, (f y).severity = y.severity)
    (hinv : severityInvariant s) : severityInvariant (updAlert s aid f) := by
  intro inc hmem
  have hmem0 : inc ∈ s.incidents := hmem
  rw [incidentAlerts_updAlert_pointwise s aid f inc.id hincid]
  refine isMaxSeverityOf_map _ _ _ ?_ (hinv inc hmem0)
  intro y
  by_cases h : (y.id == aid) = true <;> simp [h, hsev]

theorem severityInvariant_createAlert (s : Store) (am : AMAlert)
    (hinv : severityInvariant s) : severityInvariant (createAlert s am).1 := by
  intro inc hmem
  have hmem0 : inc ∈ s.incidents := hmem
  have hfil : incidentAlerts (createAlert s am).1 inc.id = incidentAlerts s inc.id := by
    unfold incidentAlerts
    exact filter_append_single _ _ _ (by simp [createAlert, amToAlert])
  rw [hfil]
  exact hinv inc hmem0

theorem severityInvariant_checkIncidentResolution (s : Store) (iid : Nat) (now : Int)
    (hinv : severityInvariant s) :
    severityInvariant (checkIncidentResolution s iid now) := by
  unfold checkIncidentResolution
  split
  · exact hinv
  · split
    · split
      · exact severityInvariant_updIncident_pres s iid _ (fun y => rfl) (fun y => rfl) hinv
      · exact hinv
    · exact hinv

theorem severityInvariant_updateAlertStatus (s : Store) (aid : Nat) (am : AMAlert)
    (now : Int) (hinv : severityInvariant s) :
    severityInvariant (updateAlertStatus s aid am now) := by
  have h1 : severityInvariant (updAlert s aid (alertStatusUpdateF am now)) := by
    refine severityInvariant_updAlert_pres s aid _ ?_ ?_ hinv
    · intro y
      unfold alertStatusUpdateF
      by_cases h : (am.status == AlertStatus.resolved) = true <;> simp [h]
    · intro y
      unfold alertStatusUpdateF
      by_cases h : (am.status == AlertStatus.resolved) = true <;> simp [h]
  unfold updateAlertStatus
  split
  · split
    · exact severityInvariant_checkIncidentResolution _ _ now h1
    · exact h1
  · exact h1

theorem severityInvariant_addLinkAndUpgrade (s : Store) (a : AlertM) (iid : Nat)
    (hwf : StoreWF s) (hinv : severityInvariant s)
    (ha : a ∈ s.alerts) (hfresh : a.incidentId = none) :
    severityInvariant (addLinkAndUpgrade s a a.id iid) := by
  intro inc hmem
  obtain ⟨y, hy, hxy⟩ := (mem_updIncident_iff _ iid _ inc).mp hmem
  have hy0 : y ∈ s.incidents := hy
  have hchar := fun (j : Nat) (x : AlertM) =>
    incidentAlerts_link s a iid j ha hfresh hwf.alertIdsNodup x
  have hmembers : ∀ j, incidentAlerts (addLinkAndUpgrade s a a.id iid) j
      = incidentAlerts (updAlert s a.id (fun x => { x with incidentId := some iid })) j :=
    fun j => rfl
  by_cases h : (y.id == iid) = true
  · have hyid : y.id = iid := by simpa using h
    rw [hxy]
    simp only [h, if_pos]
    constructor
    · intro x hx
      rw [show (attachIncidentF a y).id = y.id from rfl, hmembers, hyid] at hx
      rcases (hchar iid x).mp hx with hx1 | ⟨_, hx2⟩
      · have hb := (hinv y hy0).1 x (by rw [hyid]; exact hx1)
        show severityRank x.severity ≤ severityRank (attachIncidentF a y).severity
        rw [show (attachIncidentF a y).severity
            = (if severityRank a.severity > severityRank y.severity then a.severity
               else y.severity) from rfl]
        by_cases hcmp : severityRank a.severity > severityRank y.severity
        · rw [if_pos hcmp]; omega
        · rw [if_neg hcmp]; exact hb
      · rw [hx2]
        show severityRank a.severity ≤ severityRank (attachIncidentF a y).severity
        rw [show (attachIncidentF a y).severity
            = (if severityRank a.severity > severityRank y.severity then a.severity
               else y.severity) from rfl]
        by_cases hcmp : severityRank a.severity > severityRank y.severity
        · rw [if_pos hcmp]
        · rw [if_neg hcmp]; omega
    · rw [show (attachIncidentF a y).id = y.id from rfl, hmembers, hyid]
      rw [show (attachIncidentF a y).severity
          = (if severityRank a.severity > severityRank y.severity then a.severity
             else y.severity) from rfl]
      by_cases hcmp : severityRank a.severity > severityRank y.severity
      · refine ⟨{ a with incidentId := some iid }, ?_, ?_⟩
        · exact (hchar iid ({ a with incidentId := some iid })).mpr (Or.inr ⟨rfl, rfl⟩)
        · rw [if_pos hcmp]
      · obtain ⟨w, hw, hws⟩ := (hinv y hy0).2
        refine ⟨w, ?_, ?_⟩
        · refine (hchar iid w).mpr (Or.inl ?_)
          rw [← hyid]; exact hw
        · rw [if_neg hcmp]; exact hws
  · rw [hxy]
    simp only [h, Bool.false_eq_true, if_false]
    have hyne : y.id ≠ iid := by simpa using h
    refine isMaxSeverityOf_congr _ _ _ ?_ (hinv y hy0)
    intro x
    rw [hmembers]
    constructor
    · intro hx
      exact (hchar y.id x).mpr (Or.inl hx)
    · intro hx
      rcases (hchar y.id x).mp hx with hx1 | ⟨hj, _⟩
      · exact hx1
      · exact absurd hj hyne

theorem severityInvariant_addAlertToIncident (s : Store) (aid iid : Nat)
    (hwf : StoreWF s) (hinv : severityInvariant s)
    (hfresh : ∀ a, findAlert s aid = some a → a.incidentId = none) :
    severityInvariant (addAlertToIncident s aid iid) := by
  unfold addAlertToIncident
  split
  · exact hinv
  · rename_i a hfa
    have ha : a ∈ s.alerts := List.mem_of_find?_eq_some hfa
    have haid : a.id = aid := by simpa using List.find?_some hfa
    have h1 : severityInvariant (addLinkAndUpgrade s a aid iid) := by
      rw [← haid]
      exact severityInvariant_addLinkAndUpgrade s a iid hwf hinv ha (hfresh a hfa)
    split
    · exact severityInvariant_updIncident_pres _ iid _ (fun y => rfl) (fun y => rfl) h1
    · exact h1

theorem severityInvariant_createIncidentForAlert (s : Store) (aid : Nat)
    (hwf : StoreWF s) (hinv : severityInvariant s)
    (hfresh : ∀ a, findAlert s aid = some a → a.incidentId = none) :
    severityInvariant (createIncidentForAlert s aid) := by
  unfold createIncidentForAlert
  split
  · exact hinv
  · rename_i a hfa
    have ha : a ∈ s.alerts := List.mem_of_find?_eq_some hfa
    have haid : a.id = aid := by simpa using List.find?_some hfa
    have hfr : a.incidentId = none := hfresh a hfa
    intro inc hmem
    have hchar := fun (j : Nat) (x : AlertM) => incidentAlerts_link
      { s with incidents := s.incidents ++ [newIncidentOf s a],
               nextIncidentId := s.nextIncidentId + 1 }
      a (newIncidentOf s a).id j ha hfr hwf.alertIdsNodup x
    have hmem2 : inc ∈ s.incidents ++ [newIncidentOf s a] := hmem
    rw [← haid]
    rcases List.mem_append.mp hmem2 with hold | hnew
    · have hne : inc.id ≠ (newIncidentOf s a).id := by
        rw [show (newIncidentOf s a).id = s.nextIncidentId from rfl]
        exact Nat.ne_of_lt (hwf.incidentIdsLt inc hold)
      refine isMaxSeverityOf_congr _ (incidentAlerts s inc.id) _ ?_ (hinv inc hold)
      intro x
      constructor
      · intro hx
        exact (hchar inc.id x).mpr (Or.inl hx)
      · intro hx
        rcases (hchar inc.id x).mp hx with hx1 | ⟨hj, _⟩
        · exact hx1
        · exact absurd hj hne
    · have hinc : inc = newIncidentOf s a := List.mem_singleton.mp hnew
      subst hinc
      constructor
      · intro x hx
        rcases (hchar (newIncidentOf s a).id x).mp hx with hx1 | ⟨_, hx2⟩
        · exfalso
          have hxin : x ∈ s.alerts := (List.mem_filter.mp hx1).1
          have hxl : (x.incidentId == some (newIncidentOf s a).id) = true :=
            (List.mem_filter.mp hx1).2
          have hxl2 : x.incidentId = some s.nextIncidentId := by simpa using hxl
          exact absurd (hwf.incidentRefsLt x hxin s.nextIncidentId hxl2)
            (Nat.lt_irrefl _)
        · rw [hx2]
          exact Nat.le_refl _
      · refine ⟨{ a with incidentId := some (newIncidentOf s a).id }, ?_, rfl⟩
        exact (hchar (newIncidentOf s a).id ({ a with incidentId := some (newIncidentOf s a).id })).mpr (Or.inr ⟨rfl, rfl⟩)

theorem severityInvariant_correlateAlert (corr : Store → AlertM → Option Nat)
    (s : Store) (aid : Nat) (hwf : StoreWF s) (hinv : severityInvariant s)
    (hfresh : ∀ a, findAlert s aid = some a → a.incidentId = none) :
    severityInvariant (correlateAlert corr s aid) := by
  unfold correlateAlert
  split
  · exact hinv
  · split
    · rename_i a hfa iid hc
      exact severityInvariant_addAlertToIncident s aid iid hwf hinv hfresh
    · exact severityInvariant_createIncidentForAlert s aid hwf hinv hfresh

/-- The freshly created alert row is found under its new id and is not yet
linked to any incident. -/
theorem findAlert_createAlert (s : Store) (am : AMAlert) (hwf : StoreWF s) :
    findAlert (createAlert s am).1 (createAlert s am).2 = some (amToAlert s am) := by
  unfold findAlert createAlert
  have hnone : s.alerts.find? (fun a => a.id == s.nextAlertId) = none := by
    rw [List.find?_eq_none]
    intro x hx
    simp only [beq_iff_eq]
    exact Nat.ne_of_lt (hwf.alertIdsLt x hx)
  rw [List.find?_append, hnone]
  simp [amToAlert]

theorem severityInvariant_processOneAlert (corr : Store → AlertM → Option Nat)
    (suffix : String) (now : Int) (s : Store) (am : AMAlert)
    (hwf : StoreWF s) (hinv : severityInvariant s) :
    severityInvariant (processOneAlert corr suffix now s am) := by
  unfold processOneAlert
  split
  · refine severityInvariant_correlateAlert corr _ _ (storeWF_createAlert s am hwf)
      (severityInvariant_createAlert s am hinv) ?_
    intro a hfa2
    rw [findAlert_createAlert s am hwf] at hfa2
    rw [← Option.some.inj hfa2]
    rfl
  · split
    · refine severityInvariant_correlateAlert corr _ _
        (storeWF_createAlert s (amSuffixed am suffix) hwf)
        (severityInvariant_createAlert s (amSuffixed am suffix) hinv) ?_
      intro a hfa2
      rw [findAlert_createAlert s (amSuffixed am suffix) hwf] at hfa2
      rw [← Option.some.inj hfa2]
      rfl
    · split
      · exact severityInvariant_updateAlertStatus s _ am now hinv
      · exact hinv

theorem batch_preserves_wf_and_invariant (corr : Store → AlertM → Option Nat)
    (hcorr : ∀ st a i, corr st a = some i → i < st.nextIncidentId)
    (suffixes : Nat → String) (now : Int) :
    ∀ (ams : List AMAlert) (p : Store × Nat), StoreWF p.1 → severityInvariant p.1 →
      StoreWF (ams.foldl (processBatchStep corr suffixes now) p).1 ∧
      severityInvariant (ams.foldl (processBatchStep corr suffixes now) p).1 := by
  intro ams
  induction ams with
  | nil => intro p hwf hinv; exact ⟨hwf, hinv⟩
  | cons am t ih =>
    intro p hwf hinv
    exact ih (processBatchStep corr suffixes now p am)
      (storeWF_processOneAlert corr hcorr (suffixes p.2) now p.1 am hwf)
      (severityInvariant_processOneAlert corr (suffixes p.2) now p.1 am hwf hinv)

/-- Claim C7 (amended): the severity invariant — every incident carries the
maximum severity among its member alerts — is preserved by every webhook
ingestion batch (creation, correlation, status updates, re-firing), for any
correlation decisions that pick existing incidents.  It is manual
correlation that can break it: `manual_correlate` relinks alerts without
recomputing severity. -/
theorem ingestion_preserves_severity_invariant (corr : Store → AlertM → Option Nat)
    (hcorr : ∀ st a i, corr st a = some i → i < st.nextIncidentId)
    (suffixes : Nat → String) (now : Int) (s : Store) (ams : List AMAlert)
    (hwf : StoreWF s) (hinv : severityInvariant s) :
    severityInvariant (processBatch corr suffixes now s ams) :=
  (batch_preserves_wf_and_invariant corr hcorr suffixes now ams (s, 0) hwf hinv).2

/-- Witness for `ingestion_preserves_severity_invariant` on a concrete batch. -/
theorem ingestion_preserves_severity_invariant_witness :
    severityInvariant (processBatch (fun _ _ => none) (fun _ => "x") 0
      ⟨[], [], 0, 0⟩
      [⟨.firing, [("alertname", "CPUHigh"), ("severity", "critical")], 0, none, "f1"⟩]) := by
  refine ingestion_preserves_severity_invariant (fun _ _ => none)
    (fun st a i h => by cases h) (fun _ => "x") 0 ⟨[], [], 0, 0⟩ _ ?_ ?_
  · refine ⟨by simp, by simp, by simp, by simp, by simp⟩
  · intro inc hmem
    cases hmem

/-- Claim C7 counterexample: two firing alerts ingest into two incidents
(critical incident 0, warning incident 1); manually correlating alert 0 into
incident 1 leaves incident 1 at severity warning although its member set now
contains a critical alert — the invariant fails after a manual-correlation
operation. -/
theorem severity_invariant_counterexample :
    severityInvariant (processBatch (fun _ _ => none) (fun _ => "x") 0
      ⟨[], [], 0, 0⟩
      [⟨.firing, [("alertname", "CPUHigh"), ("severity", "critical")], 0, none, "f1"⟩,
       ⟨.firing, [("alertname", "DiskWarn"), ("severity", "warning")], 0, none, "f2"⟩]) ∧
    ¬ severityInvariant (manualCorrelate
      (processBatch (fun _ _ => none) (fun _ => "x") 0
        ⟨[], [], 0, 0⟩
        [⟨.firing, [("alertname", "CPUHigh"), ("severity", "critical")], 0, none, "f1"⟩,
         ⟨.firing, [("alertname", "DiskWarn"), ("severity", "warning")], 0, none, "f2"⟩])
      1 [0]) := by
  constructor
  · unfold severityInvariant isMaxSeverityOf
    decide
  · unfold severityInvariant isMaxSeverityOf
    decide

/-! Branch equations and size/membership facts for the webhook pipeline. -/

theorem checkIncidentResolution_alerts (s : Store) (iid : Nat) (now : Int) :
    (checkIncidentResolution s iid now).alerts = s.alerts := by
  unfold checkIncidentResolution
  split
  · rfl
  · split
    · split <;> rfl
    · rfl

theorem updateAlertStatus_firing (s : Store) (aid : Nat) (am : AMAlert) (now : Int)
    (h : am.status = .firing) :
    updateAlertStatus s aid am now = updAlert s aid (alertStatusUpdateF am now) := by
  unfold updateAlertStatus
  rw [if_neg (by simp [h])]

theorem updateAlertStatus_alerts_resolved (s : Store) (aid : Nat) (am : AMAlert)
    (now : Int) :
    (updateAlertStatus s aid am now).alerts
      = (updAlert s aid (alertStatusUpdateF am now)).alerts := by
  unfold updateAlertStatus
  split
  · split
    · exact checkIncidentResolution_alerts _ _ now
    · rfl
  · rfl

theorem addAlertToIncident_alerts_length (s : Store) (aid iid : Nat) :
    (addAlertToIncident s aid iid).alerts.length = s.alerts.length := by
  unfold addAlertToIncident
  split
  · rfl
  · split <;> simp [addLinkAndUpgrade, updIncident, updAlert]

theorem addAlertToIncident_incidents_length (s : Store) (aid iid : Nat) :
    (addAlertToIncident s aid iid).incidents.length = s.incidents.length := by
  unfold addAlertToIncident
  split
  · rfl
  · split <;> simp [addLinkAndUpgrade, updIncident, updAlert]

theorem createIncidentForAlert_alerts_length (s : Store) (aid : Nat) :
    (createIncidentForAlert s aid).alerts.length = s.alerts.length := by
  unfold createIncidentForAlert
  split
  · rfl
  · simp [updAlert]

theorem createIncidentForAlert_incidents_length_some (s : Store) (aid : Nat)
    (a : AlertM) (h : findAlert s aid = some a) :
    (createIncidentForAlert s aid).incidents.length = s.incidents.length + 1 := by
  unfold createIncidentForAlert
  split
  · rename_i heq
    rw [h] at heq; cases heq
  · simp [updAlert]

theorem correlateAlert_alerts_length (corr : Store → AlertM → Option Nat)
    (s : Store) (aid : Nat) :
    (correlateAlert corr s aid).alerts.length = s.alerts.length := by
  unfold correlateAlert
  split
  · rfl
  · split
    · exact addAlertToIncident_alerts_length s aid _
    · exact createIncidentForAlert_alerts_length s aid

theorem mem_addAlertToIncident_of_ne (s : Store) (aid iid : Nat) (x : AlertM)
    (hx : x ∈ s.alerts) (hne : x.id ≠ aid) :
    x ∈ (addAlertToIncident s aid iid).alerts := by
  unfold addAlertToIncident
  split
  · exact hx
  · split
    · exact mem_updAlert_of_ne s aid _ x hx hne
    · exact mem_updAlert_of_ne s aid _ x hx hne

theorem mem_createIncidentForAlert_of_ne (s : Store) (aid : Nat) (x : AlertM)
    (hx : x ∈ s.alerts) (hne : x.id ≠ aid) :
    x ∈ (createIncidentForAlert s aid).alerts := by
  unfold createIncidentForAlert
  split
  · exact hx
  · rename_i a heq
    exact mem_updAlert_of_ne _ aid _ x hx hne

theorem mem_correlateAlert_of_ne (corr : Store → AlertM → Option Nat) (s : Store)
    (aid : Nat) (x : AlertM) (hx : x ∈ s.alerts) (hne : x.id ≠ aid) :
    x ∈ (correlateAlert corr s aid).alerts := by
  unfold correlateAlert
  split
  · exact hx
  · split
    · exact mem_addAlertToIncident_of_ne s aid _ x hx hne
    · exact mem_createIncidentForAlert_of_ne s aid x hx hne

theorem exists_mem_addAlertToIncident (s : Store) (aid iid : Nat) (x : AlertM)
    (hx : x ∈ s.alerts) (hid : x.id = aid) :
    ∃ y ∈ (addAlertToIncident s aid iid).alerts,
      y.fingerprint = x.fingerprint ∧ y.status = x.status := by
  unfold addAlertToIncident
  split
  · exact ⟨x, hx, rfl, rfl⟩
  · split
    · exact ⟨{ x with incidentId := some iid },
        mem_updAlert_self s aid _ x hx hid, rfl, rfl⟩
    · exact ⟨{ x with incidentId := some iid },
        mem_updAlert_self s aid _ x hx hid, rfl, rfl⟩

theorem exists_mem_createIncidentForAlert (s : Store) (aid : Nat) (x : AlertM)
    (hx : x ∈ s.alerts) (hid : x.id = aid) :
    ∃ y ∈ (createIncidentForAlert s aid).alerts,
      y.fingerprint = x.fingerprint ∧ y.status = x.status := by
  unfold createIncidentForAlert
  split
  · exact ⟨x, hx, rfl, rfl⟩
  · rename_i a heq
    exact ⟨{ x with incidentId := some (newIncidentOf s a).id },
      mem_updAlert_self _ aid _ x hx hid, rfl, rfl⟩

theorem exists_mem_correlateAlert (corr : Store → AlertM → Option Nat) (s : Store)
    (aid : Nat) (x : AlertM) (hx : x ∈ s.alerts) (hid : x.id = aid) :
    ∃ y ∈ (correlateAlert corr s aid).alerts,
      y.fingerprint = x.fingerprint ∧ y.status = x.status := by
  unfold correlateAlert
  split
  · exact ⟨x, hx, rfl, rfl⟩
  · split
    · exact exists_mem_addAlertToIncident s aid _ x hx hid
    · exact exists_mem_createIncidentForAlert s aid x hx hid

theorem correlateAlert_incidents_length_none (corr : Store → AlertM → Option Nat)
    (s : Store) (am : AMAlert) (hwf : StoreWF s)
    (hc : corr (createAlert s am).1 (amToAlert s am) = none) :
    (correlateAlert corr (createAlert s am).1 (createAlert s am).2).incidents.length
      = s.incidents.length + 1 := by
  unfold correlateAlert
  split
  · rename_i heq
    rw [findAlert_createAlert s am hwf] at heq; cases heq
  · rename_i a heq
    rw [findAlert_createAlert s am hwf] at heq
    have ha : amToAlert s am = a := Option.some.inj heq
    split
    · rename_i iid hciid
      rw [← ha, hc] at hciid; cases hciid
    · exact createIncidentForAlert_incidents_length_some _ _ (amToAlert s am)
        (findAlert_createAlert s am hwf)

theorem correlateAlert_incidents_length_some (corr : Store → AlertM → Option Nat)
    (s : Store) (am : AMAlert) (iid : Nat) (hwf : StoreWF s)
    (hc : corr (createAlert s am).1 (amToAlert s am) = some iid) :
    (correlateAlert corr (createAlert s am).1 (createAlert s am).2).incidents.length
      = s.incidents.length := by
  unfold correlateAlert
  split
  · rename_i heq
    rw [findAlert_createAlert s am hwf] at heq; cases heq
  · rename_i a heq
    rw [findAlert_createAlert s am hwf] at heq
    have ha : amToAlert s am = a := Option.some.inj heq
    split
    · exact addAlertToIncident_incidents_length _ _ _
    · rename_i hciid
      rw [← ha, hc] at hciid; cases hciid

theorem refireCond_true_of (s : Store) (e : AlertM) (am : AMAlert) (inc : IncidentM)
    (hres : e.status = .resolved) (hfir : am.status = .firing)
    (hbind : e.incidentId.bind (getIncident s) = some inc)
    (hinc : inc.status = .resolved) : refireCond s e am = true := by
  unfold refireCond
  rw [hbind]
  have hsome : e.incidentId.isSome = true := by
    cases hb : e.incidentId with
    | none => rw [hb] at hbind; cases hbind
    | some v => rfl
  simp [hres, hfir, hsome, hinc]

theorem refireCond_false_of (s : Store) (e : AlertM) (am : AMAlert)
    (hall : ∀ inc, e.incidentId.bind (getIncident s) = some inc →
      inc.status ≠ .resolved) : refireCond s e am = false := by
  unfold refireCond
  cases hb : e.incidentId.bind (getIncident s) with
  | none => simp
  | some inc =>
    have h2 : (inc.status == IncidentStatus.resolved) = false := by
      simpa using hall inc hb
    simp [h2]

theorem processOneAlert_refire_eq (corr : Store → AlertM → Option Nat)
    (suffix : String) (now : Int) (s : Store) (am : AMAlert) (e : AlertM)
    (hfind : findAlertByFingerprint s am.fingerprint = some e)
    (hcond : refireCond s e am = true) :
    processOneAlert corr suffix now s am
      = correlateAlert corr (createAlert s (amSuffixed am suffix)).1
          (createAlert s (amSuffixed am suffix)).2 := by
  unfold processOneAlert
  split
  · rename_i heq; rw [hfind] at heq; cases heq
  · rename_i existing heq
    rw [hfind] at heq
    have he : e = existing := Option.some.inj heq
    subst he
    rw [if_pos hcond]

theorem processOneAlert_update_eq (corr : Store → AlertM → Option Nat)
    (suffix : String) (now : Int) (s : Store) (am : AMAlert) (e : AlertM)
    (hfind : findAlertByFingerprint s am.fingerprint = some e)
    (hcond : refireCond s e am = false)
    (hchange : (e.status != am.status) = true) :
    processOneAlert corr suffix now s am = updateAlertStatus s e.id am now := by
  unfold processOneAlert
  split
  · rename_i heq; rw [hfind] at heq; cases heq
  · rename_i existing heq
    rw [hfind] at heq
    have he : e = existing := Option.some.inj heq
    subst he
    rw [if_neg (by rw [hcond]; simp), if_pos hchange]

/-- Claim C10: for an incoming firing alert whose fingerprint matches an
existing resolved row, a fresh row with a suffixed fingerprint is inserted
(and fresh correlation runs, creating a new incident when no candidate is
chosen) exactly when the row's incident exists and is resolved; in every
other case (no incident link, dangling link, or incident open / analyzing /
closed) the existing row itself is flipped back to firing, keeping its
fingerprint, with no new alert and no new incident. -/
theorem webhook_refire_policy (corr : Store → AlertM → Option Nat) (suffix : String)
    (now : Int) (s : Store) (am : AMAlert) (e : AlertM)
    (hwf : StoreWF s)
    (hfind : findAlertByFingerprint s am.fingerprint = some e)
    (hres : e.status = .resolved) (hfir : am.status = .firing) :
    (∀ inc, e.incidentId.bind (getIncident s) = some inc → inc.status = .resolved →
      (processOneAlert corr suffix now s am).alerts.length = s.alerts.length + 1 ∧
      e ∈ (processOneAlert corr suffix now s am).alerts ∧
      (∃ y ∈ (processOneAlert corr suffix now s am).alerts,
         y.fingerprint = am.fingerprint ++ "_" ++ suffix ∧ y.status = .firing) ∧
      (corr (createAlert s (amSuffixed am suffix)).1 (amToAlert s (amSuffixed am suffix))
          = none →
        (processOneAlert corr suffix now s am).incidents.length
          = s.incidents.length + 1) ∧
      (∀ iid, corr (createAlert s (amSuffixed am suffix)).1
          (amToAlert s (amSuffixed am suffix)) = some iid →
        (processOneAlert corr suffix now s am).incidents.length
          = s.incidents.length)) ∧
    ((∀ inc, e.incidentId.bind (getIncident s) = some inc → inc.status ≠ .resolved) →
      processOneAlert corr suffix now s am = updateAlertStatus s e.id am now ∧
      (processOneAlert corr suffix now s am).alerts.length = s.alerts.length ∧
      (processOneAlert corr suffix now s am).incidents = s.incidents ∧
      { e with status := AlertStatus.firing } ∈
        (processOneAlert corr suffix now s am).alerts) := by
  have hemem : e ∈ s.alerts := List.mem_of_find?_eq_some hfind
  constructor
  · intro inc hbind hincres
    have hcond := refireCond_true_of s e am inc hres hfir hbind hincres
    rw [processOneAlert_refire_eq corr suffix now s am e hfind hcond]
    refine ⟨?_, ?_, ?_, ?_, ?_⟩
    · rw [correlateAlert_alerts_length]
      simp [createAlert]
    · refine mem_correlateAlert_of_ne corr _ _ e ?_ ?_
      · exact List.mem_append_left _ hemem
      · exact Nat.ne_of_lt (hwf.alertIdsLt e hemem)
    · obtain ⟨y, hy, hyf, hys⟩ := exists_mem_correlateAlert corr
        (createAlert s (amSuffixed am suffix)).1 (createAlert s (amSuffixed am suffix)).2
        (amToAlert s (amSuffixed am suffix))
        (List.mem_append_right _ (List.mem_singleton.mpr rfl)) rfl
      refine ⟨y, hy, ?_, ?_⟩
      · rw [hyf]; rfl
      · rw [hys, show (amToAlert s (amSuffixed am suffix)).status = am.status from rfl,
          hfir]
    · intro hc
      exact correlateAlert_incidents_length_none corr s (amSuffixed am suffix) hwf hc
    · intro iid hc
      exact correlateAlert_incidents_length_some corr s (amSuffixed am suffix) iid hwf hc
  · intro hall
    have hcond := refireCond_false_of s e am hall
    have hchange : (e.status != am.status) = true := by
      rw [hres, hfir]; rfl
    have heq := processOneAlert_update_eq corr suffix now s am e hfind hcond hchange
    rw [heq, updateAlertStatus_firing s e.id am now hfir]
    refine ⟨?_, ?_, rfl, ?_⟩
    · rfl
    · simp [updAlert]
    · have hmem := mem_updAlert_self s e.id (alertStatusUpdateF am now) e hemem rfl
      have hfe : alertStatusUpdateF am now e = { e with status := AlertStatus.firing } := by
        unfold alertStatusUpdateF
        rw [if_neg (by simp [hfir]), hfir]
      rw [← hfe]
      exact hmem

/-- Witness for `webhook_refire_policy` at a concrete store. -/
theorem webhook_refire_policy_witness :
    (processOneAlert (fun _ _ => none) "ab" 500
      ⟨[⟨0, "f1", "CPUHigh", .critical, .resolved, [], 0, some 100, some 0⟩],
       [⟨0, "t", .resolved, .critical, 0, some 100, [], [], some 0, none⟩], 1, 1⟩
      ⟨.firing, [("alertname", "CPUHigh"), ("severity", "critical")], 400, none, "f1"⟩
      ).alerts.length = 2 ∧
    (processOneAlert (fun _ _ => none) "ab" 500
      ⟨[⟨0, "f1", "CPUHigh", .critical, .resolved, [], 0, some 100, some 0⟩],
       [⟨0, "t", .resolved, .critical, 0, some 100, [], [], some 0, none⟩], 1, 1⟩
      ⟨.firing, [("alertname", "CPUHigh"), ("severity", "critical")], 400, none, "f1"⟩
      ).incidents.length = 2 := by
  have h := webhook_refire_policy (fun _ _ => none) "ab" 500
    ⟨[⟨0, "f1", "CPUHigh", .critical, .resolved, [], 0, some 100, some 0⟩],
     [⟨0, "t", .resolved, .critical, 0, some 100, [], [], some 0, none⟩], 1, 1⟩
    ⟨.firing, [("alertname", "CPUHigh"), ("severity", "critical")], 400, none, "f1"⟩
    ⟨0, "f1", "CPUHigh", .critical, .resolved, [], 0, some 100, some 0⟩
    ⟨by decide, by decide, by decide, by decide, by
      intro a ha j hj
      rw [List.mem_singleton.mp ha] at hj
      have hj0 : (0 : Nat) = j := Option.some.inj hj
      rw [← hj0]
      decide⟩
    (by decide) (by decide) (by decide)
  obtain ⟨h1, -, -, h4, -⟩ := h.1
    ⟨0, "t", .resolved, .critical, 0, some 100, [], [], some 0, none⟩ (by decide) (by decide)
  exact ⟨h1, h4 (by decide)⟩

/-- Claim C8 (amended): an alert updated to resolved by the pipeline always
gets a non-null `ends_at` (incoming value when usable, else now) — but the
claimed equivalence fails in both directions: a newly created row copies the
payload `ends_at` regardless of status, and an update back to firing leaves
the previous `ends_at` in place. -/
theorem alert_ends_at_policy (s : Store) (aid : Nat) (am : AMAlert) (now : Int) :
    (am.status = .resolved →
      ∀ x ∈ (updateAlertStatus s aid am now).alerts, x.id = aid → x.endsAt ≠ none) ∧
    ((amToAlert s am).endsAt = usableEndsAt am.endsAt) ∧
    (am.status = .firing →
      (updateAlertStatus s aid am now).alerts.map (fun a => a.endsAt)
        = s.alerts.map (fun a => a.endsAt)) := by
  refine ⟨?_, rfl, ?_⟩
  · intro hs x hx hxid
    rw [updateAlertStatus_alerts_resolved] at hx
    obtain ⟨y, hy, hxy⟩ := (mem_updAlert_iff s aid _ x).mp hx
    by_cases h : (y.id == aid) = true
    · rw [hxy]
      simp only [h, if_pos]
      unfold alertStatusUpdateF
      rw [if_pos (by simp [hs])]
      simp
    · rw [hxy] at hxid
      simp only [h, Bool.false_eq_true, if_false] at hxid
      exact absurd hxid (by simpa using h)
  · intro hf
    rw [updateAlertStatus_firing s aid am now hf]
    rw [show (updAlert s aid (alertStatusUpdateF am now)).alerts
        = s.alerts.map (fun a => if a.id == aid then alertStatusUpdateF am now a else a)
        from rfl, List.map_map]
    apply List.map_congr_left
    intro a _
    by_cases h : a.id = aid <;> simp [h, alertStatusUpdateF, hf]

/-- Witness for `alert_ends_at_policy` at a concrete store. -/
theorem alert_ends_at_policy_witness :
    (⟨0, "f1", "CPUHigh", .critical, .resolved, [], 0, some 300, none⟩ : AlertM).endsAt
      ≠ none := by
  exact (alert_ends_at_policy
      ⟨[⟨0, "f1", "CPUHigh", .critical, .firing, [], 0, none, none⟩], [], 1, 0⟩ 0
      ⟨.resolved, [("severity", "critical")], 0, none, "f1"⟩ 300).1 rfl
    ⟨0, "f1", "CPUHigh", .critical, .resolved, [], 0, some 300, none⟩ (by decide) rfl

/-- Claim C8 counterexample: ingest firing f1 and f2 into one incident,
resolve f1 (ends_at set to 100), then re-fire f1 while the incident is still
open: the pipeline flips the row back to firing but keeps ends_at = 100, so
after this batch "ends_at non-null iff resolved" is false (it held one step
earlier). -/
theorem alert_ends_at_counterexample :
    endsAtIffResolved (processBatch
      (fun _ a => if a.fingerprint == "f2" then some 0 else none) (fun _ => "x") 300
      ⟨[], [], 0, 0⟩
      [⟨.firing, [("alertname", "CPUHigh"), ("severity", "critical")], 0, none, "f1"⟩,
       ⟨.firing, [("alertname", "DiskWarn"), ("severity", "warning")], 10, none, "f2"⟩,
       ⟨.resolved, [("alertname", "CPUHigh"), ("severity", "critical")], 0, some 100, "f1"⟩]) ∧
    ¬ endsAtIffResolved (processBatch
      (fun _ a => if a.fingerprint == "f2" then some 0 else none) (fun _ => "x") 300
      ⟨[], [], 0, 0⟩
      [⟨.firing, [("alertname", "CPUHigh"), ("severity", "critical")], 0, none, "f1"⟩,
       ⟨.firing, [("alertname", "DiskWarn"), ("severity", "warning")], 10, none, "f2"⟩,
       ⟨.resolved, [("alertname", "CPUHigh"), ("severity", "critical")], 0, some 100, "f1"⟩,
       ⟨.firing, [("alertname", "CPUHigh"), ("severity", "critical")], 200, none, "f1"⟩]) := by
  constructor
  · unfold endsAtIffResolved
    decide
  · unfold endsAtIffResolved
    decide

end ObserveAI
